import Mathlib

/-!
# QMC5883L magnetometer driver: a shallow embedding

The development embeds `src/drivers/magnetometer/qmc5883l/QMC5883L.cpp`.

* Bytes (`uint8_t`) are `Fin 256`; wider machine integers are `Nat`/`Int` with the
  truncation written out where the C++ converts.
* The object's member variables, the outside world (bus and clock) and the trace
  of calls made on collaborators are threaded explicitly through every method.
* The bus and the clock are an arbitrary `Platform`; two concrete platforms are
  provided, a scripted one and a faithful register store.
-/

namespace QMC5883L

/-! ## Machine integers -/

/-- An 8-bit unsigned value. -/
abbrev uint8_t := Fin 256

/-- Smallest `int16_t`. -/
def INT16_MIN : Int := -32768

/-- Largest `int16_t`. -/
def INT16_MAX : Int := 32767

/-- Conversion of an `int` to `int16_t`: reduction modulo `2^16` into the
two's-complement range. -/
def toInt16 (v : Int) : Int :=
  let m := v % 65536
  if m ≥ 32768 then m - 65536 else m

/-- Source `combine`: `return (msb << 8u) | lsb;`, the `int` result converted to
the `int16_t` return type. -/
def combine (msb lsb : uint8_t) : Int :=
  toInt16 (((msb.val <<< 8) ||| lsb.val : Nat) : Int)

/-! ## Time literals -/

/-- Modelled from the spec: the `_ms` literal of `time_literals` is not among the
sources; the clock counts microseconds, so `n` ms is `1000 * n` ticks. -/
def ms (n : Nat) : Nat := n * 1000

/-- Modelled from the spec: the `_s` literal of `time_literals`, one second is
1000 ms. -/
def sec (n : Nat) : Nat := n * 1000000

/-! ## Data model -/

/-- Source `enum class STATE`. -/
inductive STATE where
  | RESET
  | WAIT_FOR_RESET
  | CONFIGURE
  | READ
  deriving DecidableEq, Repr

/-- Source `register_config_t`: a register, the bits that must be set and the
bits that must be clear. -/
structure register_config_t where
  reg : uint8_t
  set_bits : uint8_t
  clear_bits : uint8_t
  deriving DecidableEq, Repr

/-- Register addresses, bit masks and the configuration table. They are declared
in the driver's headers, which are not part of the translated file, so the model
takes them as parameters. -/
structure Config where
  X_LSB : uint8_t
  TEMP_LSB : uint8_t
  CNTL2 : uint8_t
  DRDY : uint8_t
  OVL : uint8_t
  SOFT_RST : uint8_t
  _register_cfg : List register_config_t

/-- Source `size_register_cfg`: the number of entries of `_register_cfg`. -/
def Config.size_register_cfg (cfg : Config) : Nat := cfg._register_cfg.length

/-- The three performance counters of the driver. -/
inductive PerfCounter where
  | _transfer_perf
  | _bad_register_perf
  | _bad_transfer_perf
  deriving DecidableEq, Repr

/-- Calls the driver makes on its collaborators, in the order they are made. -/
inductive Event where
  /-- Bus call `transfer(send, send_len, recv, recv_len)`. -/
  | transfer (send : List uint8_t) (recv_len : Nat)
  /-- Sink call `_px4_mag.update(timestamp_sample, x, y, z)`. -/
  | update (timestamp_sample : Nat) (x y z : Int)
  /-- Sink call `_px4_mag.set_temperature(temperature_raw / 100.f)`; the raw count is
  recorded. -/
  | set_temperature (temperature_raw : Int)
  /-- Sink call `_px4_mag.set_scale(1.f / den)`. -/
  | set_scale (den : Nat)
  | ScheduleDelayed (delay_us : Nat)
  | ScheduleOnInterval (interval_us delay_us : Nat)
  | ScheduleNow
  | ScheduleClear
  | perf_count (c : PerfCounter)
  deriving DecidableEq, Repr

/-- The bus and the clock, over an arbitrary world `W`.
`transfer send recv_len w` gives the success flag, the bytes delivered into the
receive buffer and the next world; `hrt_absolute_time` gives a clock reading. -/
structure Platform (W : Type) where
  hrt_absolute_time : W → Nat × W
  transfer : List uint8_t → Nat → W → (Bool × List uint8_t) × W

/-- The member variables of the driver object that `RunImpl` reads and writes. -/
structure Members where
  _state : STATE
  _reset_timestamp : Nat
  _last_config_check_timestamp : Nat
  _temperature_update_timestamp : Nat
  _consecutive_failures : Nat
  _checked_register : Nat
  deriving DecidableEq, Repr

/-- The driver object `m`, together with the world it talks to and the trace of
calls it has made. -/
structure Driver (W : Type) where
  m : Members
  world : W
  trace : List Event
  deriving DecidableEq

/-- Source `struct TransferBuffer` of the READ case. -/
structure TransferBuffer where
  X_LSB : uint8_t
  X_MSB : uint8_t
  Y_LSB : uint8_t
  Y_MSB : uint8_t
  Z_LSB : uint8_t
  Z_MSB : uint8_t
  STATUS : uint8_t
  deriving DecidableEq, Repr

/-- The zero-initialised buffer (`buffer{}`) overwritten by the bytes the bus
delivered. -/
def TransferBuffer.ofBytes (r : List uint8_t) : TransferBuffer :=
  { X_LSB := r.getD 0 0, X_MSB := r.getD 1 0, Y_LSB := r.getD 2 0, Y_MSB := r.getD 3 0,
    Z_LSB := r.getD 4 0, Z_MSB := r.getD 5 0, STATUS := r.getD 6 0 }

variable {W : Type}

/-! ## Collaborator calls -/

/-- Append one call to the trace. -/
def emit (e : Event) (s : Driver W) : Driver W :=
  { s with trace := s.trace ++ [e] }

/-- One bus transfer: the call is traced and the world advances. -/
def transfer (P : Platform W) (send : List uint8_t) (recv_len : Nat) (s : Driver W) :
    Bool × List uint8_t × Driver W :=
  let r := P.transfer send recv_len s.world
  (r.1.1, r.1.2, { s with world := r.2, trace := s.trace ++ [Event.transfer send recv_len] })

/-- One clock reading. -/
def hrt_absolute_time (P : Platform W) (s : Driver W) : Nat × Driver W :=
  let r := P.hrt_absolute_time s.world
  (r.1, { s with world := r.2 })

/-- Modelled from the spec: `hrt_elapsed_time` is not among the sources; it is the
time elapsed since the recorded timestamp, a fresh clock reading minus `then_`. -/
def hrt_elapsed_time (P : Platform W) (then_ : Nat) (s : Driver W) : Nat × Driver W :=
  let r := hrt_absolute_time P s
  (r.1 - then_, r.2)

/-! ## Register access layer -/

/-- Source `RegisterRead`: one transfer of the register address for one byte; the
zero-initialised buffer is returned whatever the transfer's result. -/
def RegisterRead (P : Platform W) (reg : uint8_t) (s : Driver W) : uint8_t × Driver W :=
  let r := transfer P [reg] 1 s
  (r.2.1.getD 0 0, r.2.2)

/-- Source `RegisterWrite`: one transfer of address and value, nothing received. -/
def RegisterWrite (P : Platform W) (reg value : uint8_t) (s : Driver W) : Driver W :=
  (transfer P [reg, value] 0 s).2.2

/-- The value `(orig_val & ~clearbits) | setbits` stored into a `uint8_t`: of the
promoted `~clearbits` only the low eight bits meet `orig_val`. -/
def setAndClear (orig_val setbits clearbits : uint8_t) : uint8_t :=
  Fin.ofNat (((orig_val.val &&& (255 ^^^ clearbits.val)) ||| setbits.val))

/-- Source `RegisterSetAndClearBits`. -/
def RegisterSetAndClearBits (P : Platform W) (reg setbits clearbits : uint8_t)
    (s : Driver W) : Driver W :=
  let r := RegisterRead P reg s
  let orig_val := r.1
  let val := setAndClear orig_val setbits clearbits
  if orig_val ≠ val then RegisterWrite P reg val r.2 else r.2

/-- Source `RegisterCheck`. -/
def RegisterCheck (P : Platform W) (reg_cfg : register_config_t) (s : Driver W) :
    Bool × Driver W :=
  let r := RegisterRead P reg_cfg.reg s
  let reg_value := r.1
  let success := true
  let success :=
    if reg_cfg.set_bits ≠ 0 ∧ (reg_value.val &&& reg_cfg.set_bits.val) ≠ reg_cfg.set_bits.val
    then false else success
  let success :=
    if reg_cfg.clear_bits ≠ 0 ∧ (reg_value.val &&& reg_cfg.clear_bits.val) ≠ 0
    then false else success
  (success, r.2)

/-! ## Lifecycle state machine -/

/-- Source `Reset`: `_state = STATE::RESET; ScheduleClear(); ScheduleNow();`. -/
def Reset (s : Driver W) : Driver W :=
  emit Event.ScheduleNow
    (emit Event.ScheduleClear { s with m := { s.m with _state := STATE.RESET } })

/-- First loop of source `Configure`: set and clear all configured register bits. -/
def applyAll (P : Platform W) : List register_config_t → Driver W → Driver W
  | [], s => s
  | reg_cfg :: rest, s =>
    applyAll P rest (RegisterSetAndClearBits P reg_cfg.reg reg_cfg.set_bits reg_cfg.clear_bits s)

/-- Second loop of source `Configure`: every entry is checked, `success` is cleared
as soon as one check fails and the loop carries on. -/
def checkAll (P : Platform W) : List register_config_t → Bool → Driver W → Bool × Driver W
  | [], success, s => (success, s)
  | reg_cfg :: rest, success, s =>
    let r := RegisterCheck P reg_cfg s
    checkAll P rest (if !r.1 then false else success) r.2

/-- Source `Configure`. -/
def Configure (P : Platform W) (cfg : Config) (s : Driver W) : Bool × Driver W :=
  let s := applyAll P cfg._register_cfg s
  let r := checkAll P cfg._register_cfg true s
  (r.1, emit (Event.set_scale 12000) r.2)

/-- Case `STATE::RESET` of source `RunImpl`. -/
def RunImpl_RESET (P : Platform W) (cfg : Config) (s : Driver W) : Driver W :=
  let s := RegisterWrite P cfg.CNTL2 cfg.SOFT_RST s
  let r := hrt_absolute_time P s
  let s := { r.2 with m := { r.2.m with _reset_timestamp := r.1 } }
  let s := { s with m := { s.m with _consecutive_failures := 0 } }
  let s := { s with m := { s.m with _state := STATE.WAIT_FOR_RESET } }
  emit (Event.ScheduleDelayed (ms 100)) s

/-- Case `STATE::WAIT_FOR_RESET` of source `RunImpl`. -/
def RunImpl_WAIT_FOR_RESET (P : Platform W) (cfg : Config) (s : Driver W) : Driver W :=
  let r := RegisterRead P cfg.CNTL2 s
  if (r.1.val &&& cfg.SOFT_RST.val) = 0 then
    emit (Event.ScheduleDelayed (ms 1)) { r.2 with m := { r.2.m with _state := STATE.CONFIGURE } }
  else
    let e := hrt_elapsed_time P r.2.m._reset_timestamp r.2
    if e.1 > ms 1000 then
      emit (Event.ScheduleDelayed (ms 100)) { e.2 with m := { e.2.m with _state := STATE.RESET } }
    else
      emit (Event.ScheduleDelayed (ms 100)) e.2

/-- Case `STATE::CONFIGURE` of source `RunImpl`. -/
def RunImpl_CONFIGURE (P : Platform W) (cfg : Config) (s : Driver W) : Driver W :=
  let r := Configure P cfg s
  if r.1 then
    emit (Event.ScheduleOnInterval (ms 20) (ms 20))
      { r.2 with m := { r.2.m with _state := STATE.READ } }
  else
    let e := hrt_elapsed_time P r.2.m._reset_timestamp r.2
    let s := if e.1 > ms 1000 then { e.2 with m := { e.2.m with _state := STATE.RESET } } else e.2
    emit (Event.ScheduleDelayed (ms 100)) s

/-- The sensor-orientation block of the READ case: the three axes are assembled,
then `x = (x == INT16_MIN) ? INT16_MAX : -x` and the same for `z`; the result of
the negation is stored back into an `int16_t`. -/
def orient (buffer : TransferBuffer) : Int × Int × Int :=
  let x := combine buffer.X_MSB buffer.X_LSB
  let y := combine buffer.Y_MSB buffer.Y_LSB
  let z := combine buffer.Z_MSB buffer.Z_LSB
  let x := if x = INT16_MIN then INT16_MAX else toInt16 (-x)
  let z := if z = INT16_MIN then INT16_MAX else toInt16 (-z)
  (x, y, z)

/-- The condition of the READ case's processing branch, as the source writes it:
`!failure && (buffer.STATUS && STATUS_BIT::DRDY) && (buffer.STATUS && STATUS_BIT::OVL == 0)`.
Both `&&` are logical, and `==` binds tighter than `&&`. -/
def processCondition (cfg : Config) (failure : Bool) (buffer : TransferBuffer) : Bool :=
  !failure && (decide (buffer.STATUS ≠ 0) && decide (cfg.DRDY ≠ 0))
    && (decide (buffer.STATUS ≠ 0) && decide (cfg.OVL = 0))

/-- What the first half of the READ case leaves behind: the sample timestamp, the
failure flag, the received buffer and the driver. -/
structure Sampled (W : Type) where
  timestamp_sample : Nat
  failure : Bool
  buffer : TransferBuffer
  s : Driver W

/-- First half of the READ case: clock reading, 7-byte transfer from `X_LSB`, and
the processing branch. The calls `perf_begin` and `perf_end` on `_transfer_perf`
only time the transfer and are left out. -/
def READ_sample (P : Platform W) (cfg : Config) (s : Driver W) : Sampled W :=
  let t := hrt_absolute_time P s
  let timestamp_sample := t.1
  let r := transfer P [cfg.X_LSB] 7 t.2
  let buffer := TransferBuffer.ofBytes r.2.1
  let failure := !r.1
  let s := if failure then emit (Event.perf_count PerfCounter._bad_transfer_perf) r.2.2 else r.2.2
  let s :=
    if processCondition cfg failure buffer then
      let v := orient buffer
      let s := emit (Event.update timestamp_sample v.1 v.2.1 v.2.2) s
      { s with m := { s.m with _consecutive_failures := 0 } }
    else s
  { timestamp_sample := timestamp_sample, failure := failure, buffer := buffer, s := s }

/-- The guard `failure || hrt_elapsed_time(&_last_config_check_timestamp) > 100_ms`;
the clock is read only when `failure` is false. -/
def checkDue (P : Platform W) (failure : Bool) (s : Driver W) : Bool × Driver W :=
  if failure then (true, s)
  else
    let e := hrt_elapsed_time P s.m._last_config_check_timestamp s
    (decide (e.1 > ms 100), e.2)

/-- The temperature branch of the READ case. -/
def READ_temperature (P : Platform W) (cfg : Config) (timestamp_sample : Nat) (s : Driver W) :
    Driver W :=
  let e := hrt_elapsed_time P s.m._temperature_update_timestamp s
  if e.1 > sec 1 then
    let s := { e.2 with m := { e.2.m with _temperature_update_timestamp := timestamp_sample } }
    let r := transfer P [cfg.TEMP_LSB] 2 s
    if r.1 then
      let temperature_raw := combine (r.2.1.getD 1 0) (r.2.1.getD 0 0)
      emit (Event.set_temperature temperature_raw) r.2.2
    else r.2.2
  else e.2

/-- The closing test of the READ case: `if (_consecutive_failures > 10) Reset();`. -/
def READ_threshold (s : Driver W) : Driver W :=
  if s.m._consecutive_failures > 10 then Reset s else s

/-- Case `STATE::READ` of source `RunImpl`. The result is `none` when the lookup
`_register_cfg[_checked_register]` is outside the table. -/
def RunImpl_READ (P : Platform W) (cfg : Config) (s : Driver W) : Option (Driver W) :=
  let a := READ_sample P cfg s
  let d := checkDue P a.failure a.s
  if d.1 then
    match cfg._register_cfg[d.2.m._checked_register]? with
    | none => none
    | some reg_cfg =>
      let c := RegisterCheck P reg_cfg d.2
      if c.1 then
        let s := { c.2 with m := { c.2.m with _last_config_check_timestamp := a.timestamp_sample } }
        let s := { s with m := { s.m with
          _checked_register := (s.m._checked_register + 1) % cfg.size_register_cfg } }
        some (READ_threshold s)
      else
        some (Reset (emit (Event.perf_count PerfCounter._bad_register_perf) c.2))
  else
    some (READ_threshold (READ_temperature P cfg a.timestamp_sample d.2))

/-- Source `RunImpl`: one step of the state machine. -/
def RunImpl (P : Platform W) (cfg : Config) (s : Driver W) : Option (Driver W) :=
  match s.m._state with
  | STATE.RESET => some (RunImpl_RESET P cfg s)
  | STATE.WAIT_FOR_RESET => some (RunImpl_WAIT_FOR_RESET P cfg s)
  | STATE.CONFIGURE => some (RunImpl_CONFIGURE P cfg s)
  | STATE.READ => RunImpl_READ P cfg s

/-- Repeated invocation of `RunImpl`, `n` times. -/
def run (P : Platform W) (cfg : Config) : Nat → Driver W → Option (Driver W)
  | 0, s => some s
  | n + 1, s => (RunImpl P cfg s).bind (run P cfg n)

/-! ## Observations on traces -/

/-- The samples handed to the measurement sink. -/
def published : List Event → List (Nat × Int × Int × Int)
  | [] => []
  | Event.update t x y z :: es => (t, x, y, z) :: published es
  | _ :: es => published es

/-- A register write on the bus: a two-byte command with nothing received. -/
def isWrite : Event → Bool
  | Event.transfer [_, _] 0 => true
  | _ => false

/-- A bus transfer of any shape. -/
def isTransfer : Event → Bool
  | Event.transfer _ _ => true
  | _ => false

/-! ## Concrete platforms -/

/-- A scripted world: the clock readings and the transfer results still to come. -/
structure Script where
  clock : List Nat
  bus : List (Bool × List uint8_t)
  deriving DecidableEq

/-- The scripted platform: each call consumes the next scripted answer; an
exhausted clock reads 0 and an exhausted bus fails with nothing delivered. -/
def scripted : Platform Script where
  hrt_absolute_time w := (w.clock.headD 0, { w with clock := w.clock.tail })
  transfer _ _ w := (w.bus.headD (false, []), { w with bus := w.bus.tail })

/-- A register file: reads return the last written value. -/
structure Store where
  regs : uint8_t → uint8_t
  now : Nat

/-- The bytes of `n` consecutive registers starting at `reg`. -/
def Store.readFrom (w : Store) (reg : uint8_t) : Nat → List uint8_t
  | 0 => []
  | n + 1 => w.regs reg :: Store.readFrom w (reg + 1) n

/-- The faithful register store: every transfer succeeds, a one-byte command
reads consecutive registers, a two-byte command with nothing to receive writes
one register, and nothing else changes the registers. -/
def faithful : Platform Store where
  hrt_absolute_time w := (w.now, w)
  transfer send recv_len w :=
    match send, recv_len with
    | [reg], n => ((true, w.readFrom reg n), w)
    | [reg, value], 0 =>
      ((true, []), { w with regs := fun r => if r = reg then value else w.regs r })
    | _, _ => ((true, []), w)

/-- The register addresses and bit masks of the QMC5883L data sheet, with a table
of one entry on `CNTL1` (address `0x09`). -/
def datasheet : Config where
  X_LSB := 0x00
  TEMP_LSB := 0x07
  CNTL2 := 0x0A
  DRDY := 0x01
  OVL := 0x02
  SOFT_RST := 0x80
  _register_cfg := [{ reg := 0x09, set_bits := 0x01, clear_bits := 0x00 }]

/-- A driver in the given state with all counters and timestamps zero. -/
def initial (st : STATE) (w : W) : Driver W :=
  { m := { _state := st, _reset_timestamp := 0, _last_config_check_timestamp := 0,
           _temperature_update_timestamp := 0, _consecutive_failures := 0,
           _checked_register := 0 },
    world := w, trace := [] }

/-- The raw sample `X_LSB=0x00, X_MSB=0x10`, the other axes zero, `STATUS = DRDY`. -/
def readySample : List uint8_t := [0x00, 0x10, 0x00, 0x00, 0x00, 0x00, 0x01]

/-- A driver in READ whose next sample transfer succeeds with `readySample`, the
clock reading 5000 and then 5010. -/
def readyDriver : Driver Script :=
  initial STATE.READ { clock := [5000, 5010], bus := [(true, readySample)] }

/-- The raw sample with `X = INT16_MIN` (`X_LSB=0x00, X_MSB=0x80`), `Y = 1`,
`Z = INT16_MIN`, `STATUS = DRDY`. -/
def minSample : List uint8_t := [0x00, 0x80, 0x01, 0x00, 0x00, 0x80, 0x01]

/-- The number of register-check faults recorded on a trace: the calls
`perf_count(_bad_register_perf)`, made exactly when a `RegisterCheck` of the READ
case returns false. -/
def badRegisterCount (es : List Event) : Nat :=
  es.count (Event.perf_count PerfCounter._bad_register_perf)

/-- The trace of `s'` continues the trace of `s`. -/
def Extends (s s' : Driver W) : Prop := ∃ es, s'.trace = s.trace ++ es

/-- A scripted world for `n` consecutive READ steps in which the sample transfer
fails and the register read that follows returns `0x01`: one clock reading and
two transfers a step. -/
def failingWorld (n : Nat) : Script :=
  { clock := (List.range n).map (fun i => 20000 * (i + 1)),
    bus := (List.replicate n [(false, []), (true, [0x01])]).flatten }

/-- A driver in READ with the failure counter at 0, facing `failingWorld 11`. -/
def failingDriver : Driver Script := initial STATE.READ (failingWorld 11)

/-- A driver in WAIT_FOR_RESET, reset started at time 0, whose read of `CNTL2`
returns `0x80` (`SOFT_RST` still set) and whose next clock reading is `now`. -/
def resetPending (now : Nat) : Driver Script :=
  initial STATE.WAIT_FOR_RESET { clock := [now], bus := [(true, [0x80])] }

/-- A driver in CONFIGURE, reset started at time 0, on a device that ignores the
write: `CNTL1` reads `0x00` before and after it; the next clock reading is `now`. -/
def configureStuck (now : Nat) : Driver Script :=
  initial STATE.CONFIGURE
    { clock := [now], bus := [(true, [0x00]), (true, []), (true, [0x00])] }

/-- The results of `RegisterCheck` on each entry in table order, the driver being
threaded from one check to the next. -/
def checkResults (P : Platform W) : List register_config_t → Driver W → List Bool
  | [], _ => []
  | reg_cfg :: rest, s =>
    (RegisterCheck P reg_cfg s).1 :: checkResults P rest (RegisterCheck P reg_cfg s).2

/-- The register writes on a trace. -/
def writes (es : List Event) : List Event := es.filter isWrite

/-- Two table entries do not fight over a bit: if they name the same register,
neither sets a bit that the other clears. -/
def compatible (a b : register_config_t) : Prop :=
  a.reg = b.reg →
    a.set_bits.val &&& b.clear_bits.val = 0 ∧ b.set_bits.val &&& a.clear_bits.val = 0

instance : DecidableRel compatible := fun a b => by
  unfold compatible
  exact inferInstance

/-- A register file holding `v` in every register, at time 0. -/
def constStore (v : uint8_t) : Store := { regs := fun _ => v, now := 0 }

/-- A table whose two entries name the same register; the first sets bit 0 and
the second clears it. -/
def fightingTable : List register_config_t :=
  [{ reg := 0x09, set_bits := 0x01, clear_bits := 0x00 },
   { reg := 0x09, set_bits := 0x00, clear_bits := 0x01 }]

/-- A table of three entries on three registers, in the shape of the device's
configuration: mode and rate bits on `0x09`, roll-over set and soft reset clear
on `0x0A`, the set/reset period on `0x0B`. -/
def sampleTable : List register_config_t :=
  [{ reg := 0x09, set_bits := 0x05, clear_bits := 0xF0 },
   { reg := 0x0A, set_bits := 0x40, clear_bits := 0x80 },
   { reg := 0x0B, set_bits := 0x01, clear_bits := 0x00 }]

/-- Applying the entry to the register contents `regs` would change nothing: the
value `RegisterSetAndClearBits` computes is the value already there. -/
def satisfied (e : register_config_t) (regs : uint8_t → uint8_t) : Prop :=
  setAndClear (regs e.reg) e.set_bits e.clear_bits = regs e.reg

/-- Whether the READ step from `s` takes the register-check branch: the value of
`failure || hrt_elapsed_time(&_last_config_check_timestamp) > 100_ms` in that step. -/
def checkRuns (P : Platform W) (cfg : Config) (s : Driver W) : Bool :=
  (checkDue P (READ_sample P cfg s).failure (READ_sample P cfg s).s).1

/-- The data-sheet constants with the three-entry `sampleTable`. -/
def sampleConfig : Config := { datasheet with _register_cfg := sampleTable }

/-- A driver in READ facing three steps in which the sample transfer fails and the
register read that follows returns a value that passes the check of the entry
whose turn it is. -/
def roundRobinDriver : Driver Script :=
  initial STATE.READ
    { clock := [20000, 40000, 60000],
      bus := [(false, []), (true, [0x05]), (false, []), (true, [0x40]),
              (false, []), (true, [0x01])] }

/-- A driver in RESET carrying arbitrary-looking counters and timestamps, on a bus
whose next transfer fails, with the clock about to read 7000. -/
def resetDriver : Driver Script :=
  { m := { _state := STATE.RESET, _reset_timestamp := 11, _last_config_check_timestamp := 22,
           _temperature_update_timestamp := 33, _consecutive_failures := 4,
           _checked_register := 0 },
    world := { clock := [7000], bus := [(false, [])] }, trace := [] }

/-- A driver in WAIT_FOR_RESET whose read of `CNTL2` fails with nothing delivered. -/
def resetReadFails : Driver Script :=
  initial STATE.WAIT_FOR_RESET { clock := [100000], bus := [(false, [])] }

/-- A driver in READ whose sample transfer fails and whose register read then
returns `0x00`, which fails the check of the `datasheet` entry. -/
def checkFailsDriver : Driver Script :=
  { m := { _state := STATE.READ, _reset_timestamp := 11, _last_config_check_timestamp := 22,
           _temperature_update_timestamp := 33, _consecutive_failures := 0,
           _checked_register := 0 },
    world := { clock := [7000], bus := [(false, []), (true, [0x00])] }, trace := [] }

/-- The two tests of `RegisterCheck` on a byte `v`: every bit of `set_bits` is in
`v` and no bit of `clear_bits` is. -/
def passes (e : register_config_t) (v : uint8_t) : Bool :=
  decide (v.val &&& e.set_bits.val = e.set_bits.val ∧ v.val &&& e.clear_bits.val = 0)

/-- A driver in CONFIGURE on the faithful store with every register holding `v`. -/
def configureOn (v : uint8_t) : Driver Store := initial STATE.CONFIGURE (constStore v)

/-- A table whose second entry has overlapping masks on bit 0 of register `0x0A`
and is the last entry on that register. -/
def overlapTable : List register_config_t :=
  [{ reg := 0x09, set_bits := 0x05, clear_bits := 0xF0 },
   { reg := 0x0A, set_bits := 0x41, clear_bits := 0x81 },
   { reg := 0x0B, set_bits := 0x01, clear_bits := 0x00 }]

/-- Whether the READ step from `s` takes the temperature branch: the register-check
branch is not taken and `hrt_elapsed_time(&_temperature_update_timestamp) > 1_s`. -/
def temperatureRuns (P : Platform W) (cfg : Config) (s : Driver W) : Bool :=
  !(checkDue P (READ_sample P cfg s).failure (READ_sample P cfg s).s).1 &&
    decide ((hrt_elapsed_time P s.m._temperature_update_timestamp
      (checkDue P (READ_sample P cfg s).failure (READ_sample P cfg s).s).2).1 > sec 1)

/-- The clock reading the temperature guard of the READ step from `s` takes. -/
def temperatureClock (P : Platform W) (cfg : Config) (s : Driver W) : Nat :=
  (hrt_absolute_time P
    (checkDue P (READ_sample P cfg s).failure (READ_sample P cfg s).s).2).1

/-- The temperature transfers on a trace: two bytes received from `TEMP_LSB`. -/
def tempTransferCount (cfg : Config) (es : List Event) : Nat :=
  es.count (Event.transfer [cfg.TEMP_LSB] 2)

/-- A clock that never goes back: `lo w` is a bound that every reading taken from
the world `w` onwards respects, and neither a reading nor a transfer lowers it. -/
structure NonDecreasing (P : Platform W) (lo : W → Nat) : Prop where
  reading_ge : ∀ w, lo w ≤ (P.hrt_absolute_time w).1
  reading_le : ∀ w, (P.hrt_absolute_time w).1 ≤ lo (P.hrt_absolute_time w).2
  transfer_le : ∀ send n w, lo w ≤ lo (P.transfer send n w).2

/-- A world that is only a time: every clock reading returns the time and moves it
on by 30 ms; every transfer succeeds and delivers bytes `0x01`. -/
def paced : Platform Nat where
  hrt_absolute_time w := (w, w + 30000)
  transfer _ n w := ((true, List.replicate n 0x01), w)

/-- A driver in READ on the paced world at time 2 s, last configuration check at
2 s, last temperature update at 0. -/
def pacedDriver : Driver Nat :=
  { m := { _state := STATE.READ, _reset_timestamp := 0,
           _last_config_check_timestamp := 2000000, _temperature_update_timestamp := 0,
           _consecutive_failures := 0, _checked_register := 0 },
    world := 2000000, trace := [] }

/-- Modelled from the spec: the scheduler is an external collaborator, not among
the sources. It holds the time of the pending invocation, if any, and the
recurring interval, if one was requested. -/
structure Schedule where
  next : Option Nat
  interval : Option Nat
  deriving DecidableEq, Repr

/-- Modelled from the spec: the effect on the schedule of a call made at time
`now`: "run me again after delay D" (one-shot), "run me every interval I"
(recurring, first after the delay), run now, or clear. -/
def Schedule.apply (now : Nat) (sc : Schedule) : Event → Schedule
  | Event.ScheduleDelayed d => { next := some (now + d), interval := none }
  | Event.ScheduleOnInterval i d => { next := some (now + d), interval := some i }
  | Event.ScheduleNow => { sc with next := some now }
  | Event.ScheduleClear => { next := none, interval := none }
  | _ => sc

/-- A driver whose world is the simulated time, with its schedule. -/
structure Sim where
  drv : Driver Nat
  sched : Schedule
  deriving DecidableEq

/-- One turn of the scheduler up to the time `horizon`: the pending invocation, if
it is due within the horizon, runs `RunImpl` exactly at its time; a recurring
interval re-arms before the step, and the scheduling calls of the step then apply
in order. The turn is recorded as the time and the states before and after. -/
def simStep (P : Platform Nat) (cfg : Config) (horizon : Nat) (x : Sim) :
    Option ((Nat × STATE × STATE) × Sim) :=
  match x.sched.next with
  | none => none
  | some t =>
    if t > horizon then none
    else
      let s : Driver Nat := { x.drv with world := t }
      match RunImpl P cfg s with
      | none => none
      | some s' =>
        let base : Schedule :=
          match x.sched.interval with
          | some i => { next := some (t + i), interval := some i }
          | none => { next := none, interval := none }
        let sc := (s'.trace.drop s.trace.length).foldl (Schedule.apply t) base
        some ((t, s.m._state, s'.m._state), { drv := s', sched := sc })

/-- The turns of the scheduler up to `horizon`, at most `fuel` of them. -/
def simulate (P : Platform Nat) (cfg : Config) (horizon : Nat) :
    Nat → Sim → List (Nat × STATE × STATE)
  | 0, _ => []
  | fuel + 1, x =>
    match simStep P cfg horizon x with
    | none => []
    | some r => r.1 :: simulate P cfg horizon fuel r.2

/-- The simulation after `n` turns, if it gets that far. -/
def simRun (P : Platform Nat) (cfg : Config) (horizon : Nat) : Nat → Sim → Option Sim
  | 0, x => some x
  | n + 1, x => (simStep P cfg horizon x).bind (fun r => simRun P cfg horizon n r.2)

/-- The transitions from WAIT_FOR_RESET back to RESET among recorded turns. -/
def resetTimeouts (tr : List (Nat × STATE × STATE)) : Nat :=
  (tr.filter (fun x => decide (x.2 = (STATE.WAIT_FOR_RESET, STATE.RESET)))).length

/-- A world that is only the simulated time, which stands still during a step;
every transfer succeeds and every byte read is `v`. -/
def stuck (v : uint8_t) : Platform Nat where
  hrt_absolute_time w := (w, w)
  transfer _ n w := ((true, List.replicate n v), w)

/-- The driver in RESET at time 0 with the first invocation pending at time 0. -/
def powerOn : Sim :=
  { drv := initial STATE.RESET 0, sched := { next := some 0, interval := none } }

/-- The thirteen turns of the scenario: RESET at 0, WAIT_FOR_RESET every 100 ms
from 100 ms to 1000 ms staying put, back to RESET at 1100 ms, RESET again at
1200 ms. -/
def resetScenario : List (Nat × STATE × STATE) :=
  [(0, STATE.RESET, STATE.WAIT_FOR_RESET),
   (100000, STATE.WAIT_FOR_RESET, STATE.WAIT_FOR_RESET),
   (200000, STATE.WAIT_FOR_RESET, STATE.WAIT_FOR_RESET),
   (300000, STATE.WAIT_FOR_RESET, STATE.WAIT_FOR_RESET),
   (400000, STATE.WAIT_FOR_RESET, STATE.WAIT_FOR_RESET),
   (500000, STATE.WAIT_FOR_RESET, STATE.WAIT_FOR_RESET),
   (600000, STATE.WAIT_FOR_RESET, STATE.WAIT_FOR_RESET),
   (700000, STATE.WAIT_FOR_RESET, STATE.WAIT_FOR_RESET),
   (800000, STATE.WAIT_FOR_RESET, STATE.WAIT_FOR_RESET),
   (900000, STATE.WAIT_FOR_RESET, STATE.WAIT_FOR_RESET),
   (1000000, STATE.WAIT_FOR_RESET, STATE.WAIT_FOR_RESET),
   (1100000, STATE.WAIT_FOR_RESET, STATE.RESET),
   (1200000, STATE.RESET, STATE.WAIT_FOR_RESET)]

/-! ## Basic facts about the collaborator calls -/

section Basic

variable (P : Platform W) (s : Driver W)

@[simp] theorem emit_m (e : Event) : (emit e s).m = s.m := rfl

@[simp] theorem emit_world (e : Event) : (emit e s).world = s.world := rfl

@[simp] theorem emit_trace (e : Event) : (emit e s).trace = s.trace ++ [e] := rfl

@[simp] theorem transfer_m (send : List uint8_t) (n : Nat) :
    (transfer P send n s).2.2.m = s.m := rfl

@[simp] theorem transfer_trace (send : List uint8_t) (n : Nat) :
    (transfer P send n s).2.2.trace = s.trace ++ [Event.transfer send n] := rfl

@[simp] theorem hrt_absolute_time_m : (hrt_absolute_time P s).2.m = s.m := rfl

@[simp] theorem hrt_absolute_time_trace : (hrt_absolute_time P s).2.trace = s.trace := rfl

@[simp] theorem hrt_elapsed_time_m (t : Nat) : (hrt_elapsed_time P t s).2.m = s.m := rfl

@[simp] theorem hrt_elapsed_time_trace (t : Nat) :
    (hrt_elapsed_time P t s).2.trace = s.trace := rfl

@[simp] theorem RegisterRead_m (reg : uint8_t) : (RegisterRead P reg s).2.m = s.m := rfl

@[simp] theorem RegisterRead_trace (reg : uint8_t) :
    (RegisterRead P reg s).2.trace = s.trace ++ [Event.transfer [reg] 1] := rfl

@[simp] theorem RegisterWrite_m (reg v : uint8_t) : (RegisterWrite P reg v s).m = s.m := rfl

@[simp] theorem RegisterWrite_trace (reg v : uint8_t) :
    (RegisterWrite P reg v s).trace = s.trace ++ [Event.transfer [reg, v] 0] := rfl

@[simp] theorem RegisterCheck_m (e : register_config_t) : (RegisterCheck P e s).2.m = s.m := rfl

@[simp] theorem RegisterCheck_trace (e : register_config_t) :
    (RegisterCheck P e s).2.trace = s.trace ++ [Event.transfer [e.reg] 1] := rfl

@[simp] theorem Reset_trace :
    (Reset s).trace = s.trace ++ [Event.ScheduleClear, Event.ScheduleNow] := by
  simp [Reset]

@[simp] theorem Reset_state : (Reset s).m._state = STATE.RESET := rfl

theorem RegisterSetAndClearBits_m (reg a b : uint8_t) :
    (RegisterSetAndClearBits P reg a b s).m = s.m := by
  simp only [RegisterSetAndClearBits]
  split <;> rfl

end Basic

/-! ## Published samples -/

theorem published_append (l l' : List Event) :
    published (l ++ l') = published l ++ published l' := by
  induction l with
  | nil => rfl
  | cons e es ih => cases e <;> simp [published, ih]

theorem processCondition_of_OVL (cfg : Config) (failure : Bool) (buffer : TransferBuffer)
    (h : cfg.OVL ≠ 0) : processCondition cfg failure buffer = false := by
  simp [processCondition, h]

theorem published_READ_sample (P : Platform W) (cfg : Config) (s : Driver W)
    (h : cfg.OVL ≠ 0) :
    published (READ_sample P cfg s).s.trace = published s.trace := by
  simp only [READ_sample, processCondition_of_OVL _ _ _ h, Bool.false_eq_true, if_false]
  split <;> simp [published_append, published]

theorem published_checkDue (P : Platform W) (f : Bool) (s : Driver W) :
    published (checkDue P f s).2.trace = published s.trace := by
  unfold checkDue
  split <;> simp

theorem published_READ_temperature (P : Platform W) (cfg : Config) (t : Nat) (s : Driver W) :
    published (READ_temperature P cfg t s).trace = published s.trace := by
  unfold READ_temperature
  simp only
  split
  · split <;> simp [published_append, published]
  · simp

theorem published_READ_threshold (s : Driver W) :
    published (READ_threshold s).trace = published s.trace := by
  unfold READ_threshold
  split <;> simp [published_append, published]

/-! ## The sample decoder -/

theorem toInt16_range (v : Int) : -32768 ≤ toInt16 v ∧ toInt16 v ≤ 32767 := by
  unfold toInt16
  simp only
  split <;> omega

theorem combine_range (msb lsb : uint8_t) :
    -32768 ≤ combine msb lsb ∧ combine msb lsb ≤ 32767 :=
  toInt16_range _

theorem toInt16_neg (x : Int) (h1 : -32768 < x) (h2 : x ≤ 32767) : toInt16 (-x) = -x := by
  unfold toInt16
  simp only
  split <;> omega

theorem published_READ_sample_eq (P : Platform W) (cfg : Config) (s : Driver W) :
    published (READ_sample P cfg s).s.trace =
      published s.trace ++
        if processCondition cfg (READ_sample P cfg s).failure (READ_sample P cfg s).buffer
        then [((READ_sample P cfg s).timestamp_sample, orient (READ_sample P cfg s).buffer)]
        else [] := by
  simp only [READ_sample]
  split <;> split <;> simp [published_append, published]

theorem orient_of_ne (b : TransferBuffer)
    (hx : combine b.X_MSB b.X_LSB ≠ INT16_MIN) (hz : combine b.Z_MSB b.Z_LSB ≠ INT16_MIN) :
    orient b = (-combine b.X_MSB b.X_LSB, combine b.Y_MSB b.Y_LSB, -combine b.Z_MSB b.Z_LSB) := by
  have rx := combine_range b.X_MSB b.X_LSB
  have rz := combine_range b.Z_MSB b.Z_LSB
  unfold INT16_MIN at hx hz
  simp only [orient, INT16_MIN, if_neg hx, if_neg hz]
  rw [toInt16_neg _ (by omega) rx.2, toInt16_neg _ (by omega) rz.2]

theorem orient_bounds (b : TransferBuffer) :
    (-32767 ≤ (orient b).1 ∧ (orient b).1 ≤ 32767) ∧
    (-32767 ≤ (orient b).2.2 ∧ (orient b).2.2 ≤ 32767) := by
  have rx := combine_range b.X_MSB b.X_LSB
  have rz := combine_range b.Z_MSB b.Z_LSB
  simp only [orient, INT16_MIN, INT16_MAX]
  constructor
  · split
    · omega
    · rw [toInt16_neg _ (by omega) rx.2]; omega
  · split
    · omega
    · rw [toInt16_neg _ (by omega) rz.2]; omega

/-! ## Claims about the sample decoder -/

/-- C1, the code as written: when the overflow mask `OVL` is a non-zero constant,
the sub-condition `buffer.STATUS && STATUS_BIT::OVL == 0` is false, so a READ step
hands nothing to the measurement sink, whatever the transfer's outcome and the
status byte. The status gating the claim describes is never reached. -/
theorem RunImpl_READ_publishes_nothing (P : Platform W) (cfg : Config) (s s' : Driver W)
    (hOVL : cfg.OVL ≠ 0) (hst : s.m._state = STATE.READ)
    (hs : RunImpl P cfg s = some s') : published s'.trace = published s.trace := by
  simp only [RunImpl, hst] at hs
  unfold RunImpl_READ at hs
  simp only at hs
  split at hs
  · split at hs
    · exact absurd hs (by simp)
    · split at hs
      · cases hs
        simp [published_READ_threshold, published_append, published, published_checkDue,
          published_READ_sample _ _ _ hOVL]
      · cases hs
        simp [published_append, published, published_checkDue,
          published_READ_sample _ _ _ hOVL]
  · cases hs
    simp [published_READ_threshold, published_READ_temperature, published_checkDue,
      published_READ_sample _ _ _ hOVL]

/-- C1 at the claim's own input: the transfer succeeds, the status byte is `DRDY`
with the overflow bit clear, and the READ step still publishes no sample. -/
theorem RunImpl_READ_publishes_nothing_witness :
    datasheet.OVL ≠ 0 ∧
    (readySample.getD 6 0).val &&& datasheet.DRDY.val ≠ 0 ∧
    (readySample.getD 6 0).val &&& datasheet.OVL.val = 0 ∧
    ∃ s', RunImpl scripted datasheet readyDriver = some s' ∧ published s'.trace = [] :=
  ⟨by decide, by decide, by decide, _, rfl,
    RunImpl_READ_publishes_nothing scripted datasheet readyDriver _ (by decide) rfl rfl⟩

/-- C2: whenever the axes assembled from the received buffer are not `INT16_MIN` on
X and Z, the sensor-orientation block yields exactly `(-raw_x, raw_y, -raw_z)`, for
every `raw_y`; and the READ case hands the sink that triple, with the sample
timestamp, exactly when its processing branch is taken. -/
theorem READ_sample_axis_remap (P : Platform W) (cfg : Config) (s : Driver W)
    (hx : combine (READ_sample P cfg s).buffer.X_MSB (READ_sample P cfg s).buffer.X_LSB
      ≠ INT16_MIN)
    (hz : combine (READ_sample P cfg s).buffer.Z_MSB (READ_sample P cfg s).buffer.Z_LSB
      ≠ INT16_MIN) :
    orient (READ_sample P cfg s).buffer =
      (-combine (READ_sample P cfg s).buffer.X_MSB (READ_sample P cfg s).buffer.X_LSB,
        combine (READ_sample P cfg s).buffer.Y_MSB (READ_sample P cfg s).buffer.Y_LSB,
        -combine (READ_sample P cfg s).buffer.Z_MSB (READ_sample P cfg s).buffer.Z_LSB) ∧
    published (READ_sample P cfg s).s.trace =
      published s.trace ++
        if processCondition cfg (READ_sample P cfg s).failure (READ_sample P cfg s).buffer
        then [((READ_sample P cfg s).timestamp_sample,
          -combine (READ_sample P cfg s).buffer.X_MSB (READ_sample P cfg s).buffer.X_LSB,
          combine (READ_sample P cfg s).buffer.Y_MSB (READ_sample P cfg s).buffer.Y_LSB,
          -combine (READ_sample P cfg s).buffer.Z_MSB (READ_sample P cfg s).buffer.Z_LSB)]
        else [] := by
  have h := orient_of_ne _ hx hz
  refine ⟨h, ?_⟩
  rw [published_READ_sample_eq, h]

/-- C2 at the raw sample `X = 0x1000, Y = 0, Z = 0`: the remapped triple is
`(-4096, 0, 0)`; with the overflow mask taken as zero the processing branch is
taken and that triple reaches the sink with the sample timestamp 5000. -/
theorem READ_sample_axis_remap_witness :
    orient (TransferBuffer.ofBytes readySample) = (-4096, 0, 0) ∧
    published (READ_sample scripted { datasheet with OVL := 0 } readyDriver).s.trace =
      [(5000, -4096, 0, 0)] := by
  have h := READ_sample_axis_remap scripted { datasheet with OVL := 0 } readyDriver
    (by decide) (by decide)
  exact ⟨by decide, by rw [h.2]; decide⟩

/-- C3: the decoded X (respectively Z) is `INT16_MAX` when the assembled raw X
(respectively Z) is `INT16_MIN`, which is what the bytes `LSB=0x00, MSB=0x80`
assemble to; and for every buffer the decoded X and Z lie in `[-32767, 32767]`. The
triple the READ case hands the sink is this decoded triple. -/
theorem orient_saturates (b : TransferBuffer) :
    combine 0x80 0x00 = INT16_MIN ∧
    (combine b.X_MSB b.X_LSB = INT16_MIN → (orient b).1 = INT16_MAX) ∧
    (combine b.Z_MSB b.Z_LSB = INT16_MIN → (orient b).2.2 = INT16_MAX) ∧
    (-32767 ≤ (orient b).1 ∧ (orient b).1 ≤ 32767) ∧
    (-32767 ≤ (orient b).2.2 ∧ (orient b).2.2 ≤ 32767) ∧
    ∀ (W : Type) (P : Platform W) (cfg : Config) (s : Driver W),
      (READ_sample P cfg s).buffer = b →
      ∀ p ∈ published (READ_sample P cfg s).s.trace,
        p ∈ published s.trace ∨ p = ((READ_sample P cfg s).timestamp_sample, orient b) := by
  refine ⟨by decide, ?_, ?_, (orient_bounds b).1, (orient_bounds b).2, ?_⟩
  · intro h
    simp [orient, h]
  · intro h
    simp [orient, h]
  · intro W P cfg s hb p hp
    rw [published_READ_sample_eq, hb] at hp
    rcases List.mem_append.mp hp with h | h
    · exact Or.inl h
    · split at h
      · exact Or.inr (by simpa using h)
      · simp at h

/-- C3 at the buffer with X and Z both `INT16_MIN`: the decoded triple is
`(32767, 1, 32767)`. -/
theorem orient_saturates_witness :
    orient (TransferBuffer.ofBytes minSample) = (INT16_MAX, 1, INT16_MAX) := by
  have h := orient_saturates (TransferBuffer.ofBytes minSample)
  have hx := h.2.1 (by decide)
  have hz := h.2.2.1 (by decide)
  have hy : (orient (TransferBuffer.ofBytes minSample)).2.1 = 1 := by decide
  exact Prod.ext hx (Prod.ext hy hz)

/-! ## Frames of the READ case -/

theorem READ_sample_m (P : Platform W) (cfg : Config) (s : Driver W) :
    (READ_sample P cfg s).s.m =
      if processCondition cfg (READ_sample P cfg s).failure (READ_sample P cfg s).buffer
      then { s.m with _consecutive_failures := 0 } else s.m := by
  simp only [READ_sample]
  split <;> split <;> rfl

theorem READ_sample_state (P : Platform W) (cfg : Config) (s : Driver W) :
    (READ_sample P cfg s).s.m._state = s.m._state := by
  rw [READ_sample_m]; split <;> rfl

theorem READ_sample_checked (P : Platform W) (cfg : Config) (s : Driver W) :
    (READ_sample P cfg s).s.m._checked_register = s.m._checked_register := by
  rw [READ_sample_m]; split <;> rfl

theorem READ_sample_failures_le (P : Platform W) (cfg : Config) (s : Driver W) :
    (READ_sample P cfg s).s.m._consecutive_failures ≤ s.m._consecutive_failures := by
  rw [READ_sample_m]; split <;> simp

theorem READ_sample_trace (P : Platform W) (cfg : Config) (s : Driver W) :
    (READ_sample P cfg s).s.trace =
      s.trace ++ [Event.transfer [cfg.X_LSB] 7] ++
        (if (READ_sample P cfg s).failure
          then [Event.perf_count PerfCounter._bad_transfer_perf] else []) ++
        (if processCondition cfg (READ_sample P cfg s).failure (READ_sample P cfg s).buffer
          then [Event.update (READ_sample P cfg s).timestamp_sample
            (orient (READ_sample P cfg s).buffer).1 (orient (READ_sample P cfg s).buffer).2.1
            (orient (READ_sample P cfg s).buffer).2.2] else []) := by
  simp only [READ_sample]
  split <;> split <;> simp

@[simp] theorem checkDue_m (P : Platform W) (f : Bool) (s : Driver W) :
    (checkDue P f s).2.m = s.m := by
  unfold checkDue
  split <;> rfl

@[simp] theorem checkDue_trace (P : Platform W) (f : Bool) (s : Driver W) :
    (checkDue P f s).2.trace = s.trace := by
  unfold checkDue
  split <;> rfl

theorem READ_temperature_m (P : Platform W) (cfg : Config) (t : Nat) (s : Driver W) :
    (READ_temperature P cfg t s).m =
      if (hrt_elapsed_time P s.m._temperature_update_timestamp s).1 > sec 1
      then { s.m with _temperature_update_timestamp := t } else s.m := by
  simp only [READ_temperature]
  split
  · split <;> rfl
  · rfl

theorem READ_temperature_trace (P : Platform W) (cfg : Config) (t : Nat) (s : Driver W) :
    ∃ es, (READ_temperature P cfg t s).trace = s.trace ++ es ∧
      ∀ e ∈ es, (∃ a n, e = Event.transfer a n) ∨ ∃ r, e = Event.set_temperature r := by
  simp only [READ_temperature]
  split
  · split
    · exact ⟨[Event.transfer [cfg.TEMP_LSB] 2, Event.set_temperature _],
        by simp; rfl, by simp⟩
    · exact ⟨[Event.transfer [cfg.TEMP_LSB] 2], by simp, by simp⟩
  · exact ⟨[], by simp, by simp⟩

theorem READ_threshold_of_le (s : Driver W) (h : s.m._consecutive_failures ≤ 10) :
    READ_threshold s = s := by
  unfold READ_threshold
  rw [if_neg (by omega)]

/-! ## Frames of the other cases -/

theorem applyAll_m (P : Platform W) (l : List register_config_t) (s : Driver W) :
    (applyAll P l s).m = s.m := by
  induction l generalizing s with
  | nil => rfl
  | cons e l ih => simp only [applyAll, ih, RegisterSetAndClearBits_m]

theorem checkAll_m (P : Platform W) (l : List register_config_t) (b : Bool) (s : Driver W) :
    (checkAll P l b s).2.m = s.m := by
  induction l generalizing s b with
  | nil => rfl
  | cons e l ih => simp only [checkAll, ih, RegisterCheck_m]

theorem Configure_m (P : Platform W) (cfg : Config) (s : Driver W) :
    (Configure P cfg s).2.m = s.m := by
  simp [Configure, checkAll_m, applyAll_m]

theorem Extends.refl (s : Driver W) : Extends s s := ⟨[], by simp⟩

theorem Extends.trans {a b c : Driver W} (h1 : Extends a b) (h2 : Extends b c) :
    Extends a c := by
  obtain ⟨e1, h1⟩ := h1
  obtain ⟨e2, h2⟩ := h2
  exact ⟨e1 ++ e2, by rw [h2, h1, List.append_assoc]⟩

theorem Extends.of_trace {a b : Driver W} (es : List Event) (h : b.trace = a.trace ++ es) :
    Extends a b := ⟨es, h⟩

theorem RegisterSetAndClearBits_extends (P : Platform W) (reg a b : uint8_t) (s : Driver W) :
    Extends s (RegisterSetAndClearBits P reg a b s) := by
  simp only [RegisterSetAndClearBits]
  split
  · exact ⟨[Event.transfer [reg] 1, Event.transfer [reg, _] 0], by simp; rfl⟩
  · exact ⟨[Event.transfer [reg] 1], by simp⟩

theorem applyAll_extends (P : Platform W) (l : List register_config_t) (s : Driver W) :
    Extends s (applyAll P l s) := by
  induction l generalizing s with
  | nil => exact Extends.refl s
  | cons e l ih => exact (RegisterSetAndClearBits_extends P _ _ _ s).trans (ih _)

theorem checkAll_extends (P : Platform W) (l : List register_config_t) (b : Bool)
    (s : Driver W) : Extends s (checkAll P l b s).2 := by
  induction l generalizing s b with
  | nil => exact Extends.refl s
  | cons e l ih => exact (Extends.of_trace _ (RegisterCheck_trace P s e)).trans (ih _ _)

theorem Configure_extends (P : Platform W) (cfg : Config) (s : Driver W) :
    Extends s (Configure P cfg s).2 := by
  simp only [Configure]
  exact ((applyAll_extends P _ s).trans (checkAll_extends P _ _ _)).trans
    (Extends.of_trace _ (emit_trace _ _))

theorem RunImpl_RESET_extends (P : Platform W) (cfg : Config) (s : Driver W) :
    Extends s (RunImpl_RESET P cfg s) :=
  ⟨[Event.transfer [cfg.CNTL2, cfg.SOFT_RST] 0, Event.ScheduleDelayed (ms 100)], by
    simp [RunImpl_RESET]⟩

theorem RunImpl_WAIT_FOR_RESET_extends (P : Platform W) (cfg : Config) (s : Driver W) :
    Extends s (RunImpl_WAIT_FOR_RESET P cfg s) := by
  simp only [RunImpl_WAIT_FOR_RESET]
  split
  · exact ⟨[Event.transfer [cfg.CNTL2] 1, Event.ScheduleDelayed (ms 1)], by simp⟩
  · split <;> exact ⟨[Event.transfer [cfg.CNTL2] 1, Event.ScheduleDelayed (ms 100)], by simp⟩

theorem RunImpl_CONFIGURE_extends (P : Platform W) (cfg : Config) (s : Driver W) :
    Extends s (RunImpl_CONFIGURE P cfg s) := by
  simp only [RunImpl_CONFIGURE]
  split
  · exact (Configure_extends P cfg s).trans ⟨[Event.ScheduleOnInterval (ms 20) (ms 20)], rfl⟩
  · exact (Configure_extends P cfg s).trans ⟨[Event.ScheduleDelayed (ms 100)], by
      simp only [emit_trace]; split <;> rfl⟩

theorem RunImpl_RESET_checked (P : Platform W) (cfg : Config) (s : Driver W) :
    (RunImpl_RESET P cfg s).m._checked_register = s.m._checked_register := rfl

theorem RunImpl_WAIT_FOR_RESET_checked (P : Platform W) (cfg : Config) (s : Driver W) :
    (RunImpl_WAIT_FOR_RESET P cfg s).m._checked_register = s.m._checked_register := by
  simp only [RunImpl_WAIT_FOR_RESET]
  split
  · rfl
  · split <;> rfl

theorem RunImpl_CONFIGURE_checked (P : Platform W) (cfg : Config) (s : Driver W) :
    (RunImpl_CONFIGURE P cfg s).m._checked_register = s.m._checked_register := by
  simp only [RunImpl_CONFIGURE]
  split
  · simp [Configure_m]
  · split <;> simp [Configure_m]

/-! ## Register-check faults on a trace -/

theorem badRegisterCount_append (l l' : List Event) :
    badRegisterCount (l ++ l') = badRegisterCount l + badRegisterCount l' := by
  simp [badRegisterCount]

theorem badRegisterCount_le_of_extends {s s' : Driver W} (h : Extends s s') :
    badRegisterCount s.trace ≤ badRegisterCount s'.trace := by
  obtain ⟨es, h⟩ := h
  rw [h, badRegisterCount_append]
  omega

theorem badRegisterCount_READ_sample (P : Platform W) (cfg : Config) (s : Driver W) :
    badRegisterCount (READ_sample P cfg s).s.trace = badRegisterCount s.trace := by
  rw [READ_sample_trace]
  simp only [badRegisterCount_append]
  split <;> split <;> simp [badRegisterCount]

theorem badRegisterCount_READ_temperature (P : Platform W) (cfg : Config) (t : Nat)
    (s : Driver W) :
    badRegisterCount (READ_temperature P cfg t s).trace = badRegisterCount s.trace := by
  obtain ⟨es, h, hes⟩ := READ_temperature_trace P cfg t s
  rw [h, badRegisterCount_append]
  have : badRegisterCount es = 0 := by
    unfold badRegisterCount
    rw [List.count_eq_zero]
    intro hmem
    rcases hes _ hmem with ⟨a, n, h⟩ | ⟨r, h⟩ <;> cases h
  omega

theorem READ_sample_extends (P : Platform W) (cfg : Config) (s : Driver W) :
    Extends s (READ_sample P cfg s).s :=
  ⟨_, by rw [READ_sample_trace, List.append_assoc, List.append_assoc]⟩

theorem READ_temperature_extends (P : Platform W) (cfg : Config) (t : Nat) (s : Driver W) :
    Extends s (READ_temperature P cfg t s) := by
  obtain ⟨es, h, -⟩ := READ_temperature_trace P cfg t s
  exact ⟨es, h⟩

theorem READ_temperature_state (P : Platform W) (cfg : Config) (t : Nat) (s : Driver W) :
    (READ_temperature P cfg t s).m._state = s.m._state := by
  rw [READ_temperature_m]; split <;> rfl

theorem READ_temperature_checked (P : Platform W) (cfg : Config) (t : Nat) (s : Driver W) :
    (READ_temperature P cfg t s).m._checked_register = s.m._checked_register := by
  rw [READ_temperature_m]; split <;> rfl

theorem READ_temperature_failures (P : Platform W) (cfg : Config) (t : Nat) (s : Driver W) :
    (READ_temperature P cfg t s).m._consecutive_failures = s.m._consecutive_failures := by
  rw [READ_temperature_m]; split <;> rfl

/-- One READ step from a counter of at most 10 with the round-robin index inside
the table: the step returns, the index stays inside the table, and either the
machine is still in READ with a counter that has not grown and no register fault
recorded, or exactly one register fault was recorded. -/
theorem RunImpl_READ_step (P : Platform W) (cfg : Config) (s : Driver W)
    (hst : s.m._state = STATE.READ) (hcf : s.m._consecutive_failures ≤ 10)
    (hidx : s.m._checked_register < cfg.size_register_cfg) :
    ∃ s', RunImpl P cfg s = some s' ∧ s'.m._checked_register < cfg.size_register_cfg ∧
      Extends s s' ∧
      ((s'.m._state = STATE.READ ∧ s'.m._consecutive_failures ≤ s.m._consecutive_failures ∧
          badRegisterCount s'.trace = badRegisterCount s.trace) ∨
        badRegisterCount s'.trace = badRegisterCount s.trace + 1) := by
  have hcf' := READ_sample_failures_le P cfg s
  have hN : 0 < cfg.size_register_cfg := by omega
  simp only [RunImpl, hst, RunImpl_READ]
  split
  · have hi : (checkDue P (READ_sample P cfg s).failure (READ_sample P cfg s).s).2.m._checked_register
        < cfg._register_cfg.length := by
      simpa [READ_sample_checked] using hidx
    rw [List.getElem?_eq_getElem hi]
    simp only
    split
    · refine ⟨_, rfl, ?_, ?_, Or.inl ⟨?_, ?_, ?_⟩⟩
      · rw [READ_threshold_of_le _ (by simpa using by omega)]
        exact Nat.mod_lt _ hN
      · rw [READ_threshold_of_le _ (by simpa using by omega)]
        exact (READ_sample_extends P cfg s).trans ⟨[Event.transfer [_] 1], by simp; rfl⟩
      · rw [READ_threshold_of_le _ (by simpa using by omega)]
        simp [READ_sample_state, hst]
      · rw [READ_threshold_of_le _ (by simpa using by omega)]
        simpa using hcf'
      · rw [READ_threshold_of_le _ (by simpa using by omega)]
        simp only [RegisterCheck_trace, checkDue_trace, badRegisterCount_append,
          badRegisterCount_READ_sample]
        simp [badRegisterCount]
    · refine ⟨_, rfl, ?_, ?_, Or.inr ?_⟩
      · simpa [Reset, READ_sample_checked] using hidx
      · exact (READ_sample_extends P cfg s).trans ⟨[Event.transfer [_] 1,
          Event.perf_count PerfCounter._bad_register_perf, Event.ScheduleClear,
          Event.ScheduleNow], by simp; rfl⟩
      · simp only [Reset_trace, emit_trace, RegisterCheck_trace, checkDue_trace,
          badRegisterCount_append, badRegisterCount_READ_sample]
        simp [badRegisterCount]
  · have h10 : (READ_temperature P cfg (READ_sample P cfg s).timestamp_sample
        (checkDue P (READ_sample P cfg s).failure (READ_sample P cfg s).s).2).m._consecutive_failures
        ≤ 10 := by
      rw [READ_temperature_failures]; simpa using by omega
    refine ⟨_, rfl, ?_, ?_, Or.inl ⟨?_, ?_, ?_⟩⟩
    · rw [READ_threshold_of_le _ h10, READ_temperature_checked]
      simpa [READ_sample_checked] using hidx
    · rw [READ_threshold_of_le _ h10]
      exact (READ_sample_extends P cfg s).trans
        (Extends.trans ⟨[], by simp⟩ (READ_temperature_extends P cfg _ _))
    · rw [READ_threshold_of_le _ h10, READ_temperature_state]
      simp [READ_sample_state, hst]
    · rw [READ_threshold_of_le _ h10, READ_temperature_failures]
      simpa using hcf'
    · rw [READ_threshold_of_le _ h10, badRegisterCount_READ_temperature]
      simp [badRegisterCount_READ_sample]

theorem READ_threshold_checked (s : Driver W) :
    (READ_threshold s).m._checked_register = s.m._checked_register := by
  unfold READ_threshold
  split <;> rfl

theorem READ_threshold_extends (s : Driver W) : Extends s (READ_threshold s) := by
  unfold READ_threshold
  split
  · exact ⟨_, Reset_trace s⟩
  · exact Extends.refl s

/-- A step from an index inside the table returns, keeps the index inside the
table and continues the trace. -/
theorem RunImpl_total (P : Platform W) (cfg : Config) (s : Driver W)
    (hidx : s.m._checked_register < cfg.size_register_cfg) :
    ∃ s', RunImpl P cfg s = some s' ∧ s'.m._checked_register < cfg.size_register_cfg ∧
      Extends s s' := by
  have hN : 0 < cfg.size_register_cfg := by omega
  unfold RunImpl
  split
  · exact ⟨_, rfl, by rw [RunImpl_RESET_checked]; exact hidx, RunImpl_RESET_extends P cfg s⟩
  · exact ⟨_, rfl, by rw [RunImpl_WAIT_FOR_RESET_checked]; exact hidx,
      RunImpl_WAIT_FOR_RESET_extends P cfg s⟩
  · exact ⟨_, rfl, by rw [RunImpl_CONFIGURE_checked]; exact hidx,
      RunImpl_CONFIGURE_extends P cfg s⟩
  · simp only [RunImpl_READ]
    split
    · have hi : (checkDue P (READ_sample P cfg s).failure
          (READ_sample P cfg s).s).2.m._checked_register < cfg._register_cfg.length := by
        simpa [READ_sample_checked] using hidx
      rw [List.getElem?_eq_getElem hi]
      simp only
      split
      · refine ⟨_, rfl, ?_, ?_⟩
        · rw [READ_threshold_checked]
          exact Nat.mod_lt _ hN
        · exact ((READ_sample_extends P cfg s).trans
            ⟨[Event.transfer [_] 1], by simp; rfl⟩).trans (READ_threshold_extends _)
      · refine ⟨_, rfl, ?_, ?_⟩
        · simpa [Reset, READ_sample_checked] using hidx
        · exact (READ_sample_extends P cfg s).trans ⟨[Event.transfer [_] 1,
            Event.perf_count PerfCounter._bad_register_perf, Event.ScheduleClear,
            Event.ScheduleNow], by simp; rfl⟩
    · refine ⟨_, rfl, ?_, ?_⟩
      · rw [READ_threshold_checked, READ_temperature_checked]
        simpa [READ_sample_checked] using hidx
      · exact ((READ_sample_extends P cfg s).trans
          (Extends.trans ⟨[], by simp⟩ (READ_temperature_extends P cfg _ _))).trans
          (READ_threshold_extends _)

/-- Any number of steps from an index inside the table returns, keeps the index
inside the table and continues the trace. -/
theorem run_total (P : Platform W) (cfg : Config) (n : Nat) (s : Driver W)
    (hidx : s.m._checked_register < cfg.size_register_cfg) :
    ∃ s', run P cfg n s = some s' ∧ s'.m._checked_register < cfg.size_register_cfg ∧
      Extends s s' := by
  induction n generalizing s with
  | zero => exact ⟨s, rfl, hidx, Extends.refl s⟩
  | succ n ih =>
    obtain ⟨s1, h1, hi1, he1⟩ := RunImpl_total P cfg s hidx
    obtain ⟨s2, h2, hi2, he2⟩ := ih s1 hi1
    exact ⟨s2, by simp [run, h1, h2], hi2, he1.trans he2⟩

/-- C4, the code as written: `_consecutive_failures` is cleared and compared but
never incremented. From READ with a counter of at most 10 and the round-robin
index inside the table, any number `n` of steps returns, and unless a register
check failed on the way (a `_bad_register_perf` count was recorded) the machine is
still in READ with a counter that has not grown: no number of consecutive decode
failures reaches the threshold. -/
theorem READ_failures_never_reach_threshold (P : Platform W) (cfg : Config) (n : Nat)
    (s : Driver W) (hst : s.m._state = STATE.READ) (hcf : s.m._consecutive_failures ≤ 10)
    (hidx : s.m._checked_register < cfg.size_register_cfg) :
    ∃ s', run P cfg n s = some s' ∧
      (badRegisterCount s'.trace = badRegisterCount s.trace →
        s'.m._state = STATE.READ ∧ s'.m._consecutive_failures ≤ s.m._consecutive_failures) := by
  induction n generalizing s with
  | zero => exact ⟨s, rfl, fun _ => ⟨hst, Nat.le_refl _⟩⟩
  | succ n ih =>
    obtain ⟨s1, h1, hi1, -, hcase⟩ := RunImpl_READ_step P cfg s hst hcf hidx
    rcases hcase with ⟨hst1, hcf1, hb1⟩ | hb1
    · obtain ⟨s2, h2, himp⟩ := ih s1 hst1 (by omega) hi1
      refine ⟨s2, by simp [run, h1, h2], fun hb => ?_⟩
      have := himp (by omega)
      exact ⟨this.1, by omega⟩
    · obtain ⟨s2, h2, -, he2⟩ := run_total P cfg n s1 hi1
      refine ⟨s2, by simp [run, h1, h2], fun hb => ?_⟩
      have := badRegisterCount_le_of_extends he2
      omega

/-- C4 at eleven consecutive failed sample transfers, each followed by a passing
register check: after the 11th step the machine is still in READ, the counter is
still 0 and no sample was published. -/
theorem READ_failures_never_reach_threshold_witness :
    ∃ s', run scripted datasheet 11 failingDriver = some s' ∧
      s'.m._state = STATE.READ ∧ s'.m._consecutive_failures = 0 ∧
      published s'.trace = [] ∧ badRegisterCount s'.trace = 0 := by
  obtain ⟨s', h, himp⟩ := READ_failures_never_reach_threshold scripted datasheet 11
    failingDriver rfl (by decide) (by decide)
  have hc : (run scripted datasheet 11 failingDriver).map
      (fun s => (badRegisterCount s.trace, published s.trace)) = some (0, []) := by decide
  rw [h] at hc
  simp only [Option.map_some', Option.some.injEq, Prod.mk.injEq] at hc
  have := himp (by rw [hc.1]; decide)
  exact ⟨s', h, this.1, by simpa [failingDriver, initial] using this.2, hc.2, hc.1⟩

/-! ## Claims about WAIT_FOR_RESET and CONFIGURE -/

theorem checkAll_fst (P : Platform W) (l : List register_config_t) (b : Bool) (s : Driver W) :
    (checkAll P l b s).1 = (b && (checkResults P l s).all id) := by
  induction l generalizing s b with
  | nil => simp [checkAll, checkResults]
  | cons e l ih =>
    simp only [checkAll, checkResults, ih, List.all_cons, id]
    cases (RegisterCheck P e s).1 <;> cases b <;> simp

/-- C5 (as amended): a WAIT_FOR_RESET step always returns. With `e` the time elapsed
since `_reset_timestamp`, read after the register read: if `CNTL2 & SOFT_RST` reads
zero the next state is CONFIGURE with a 1 ms delay; if the bit reads set and
`e <= 1000 ms` the state stays WAIT_FOR_RESET with a 100 ms delay; if the bit reads
set and `e > 1000 ms` the next state is RESET with a 100 ms delay. No other member
changes and the only bus traffic is the one register read. -/
theorem RunImpl_WAIT_FOR_RESET_transitions (P : Platform W) (cfg : Config) (s : Driver W)
    (hst : s.m._state = STATE.WAIT_FOR_RESET) :
    ∃ s', RunImpl P cfg s = some s' ∧
      ((RegisterRead P cfg.CNTL2 s).1.val &&& cfg.SOFT_RST.val = 0 →
        s'.m = { s.m with _state := STATE.CONFIGURE } ∧
        s'.trace = s.trace ++ [Event.transfer [cfg.CNTL2] 1, Event.ScheduleDelayed (ms 1)]) ∧
      ((RegisterRead P cfg.CNTL2 s).1.val &&& cfg.SOFT_RST.val ≠ 0 →
        (hrt_elapsed_time P s.m._reset_timestamp (RegisterRead P cfg.CNTL2 s).2).1 ≤ ms 1000 →
        s'.m = s.m ∧
        s'.trace = s.trace ++ [Event.transfer [cfg.CNTL2] 1, Event.ScheduleDelayed (ms 100)]) ∧
      ((RegisterRead P cfg.CNTL2 s).1.val &&& cfg.SOFT_RST.val ≠ 0 →
        ms 1000 < (hrt_elapsed_time P s.m._reset_timestamp (RegisterRead P cfg.CNTL2 s).2).1 →
        s'.m = { s.m with _state := STATE.RESET } ∧
        s'.trace = s.trace ++ [Event.transfer [cfg.CNTL2] 1, Event.ScheduleDelayed (ms 100)]) := by
  simp only [RunImpl, hst, RunImpl_WAIT_FOR_RESET, RegisterRead_m]
  refine ⟨_, rfl, ?_, ?_, ?_⟩
  · intro h
    rw [if_pos h]
    exact ⟨rfl, by simp⟩
  · intro h he
    rw [if_neg h, if_neg (by omega)]
    exact ⟨rfl, by simp⟩
  · intro h he
    rw [if_neg h, if_pos he]
    exact ⟨rfl, by simp⟩

/-- C5 at a step taken 1000.001 ms after the reset started with `SOFT_RST` still
set: the machine goes back to RESET and asks to be run again after 100 ms. -/
theorem RunImpl_WAIT_FOR_RESET_transitions_witness :
    ∃ s', RunImpl scripted datasheet (resetPending 1000001) = some s' ∧
      s'.m._state = STATE.RESET ∧
      s'.trace = [Event.transfer [0x0A] 1, Event.ScheduleDelayed 100000] := by
  obtain ⟨s', h, -, -, h3⟩ :=
    RunImpl_WAIT_FOR_RESET_transitions scripted datasheet (resetPending 1000001) rfl
  have := h3 (by decide) (by decide)
  exact ⟨s', h, by rw [this.1], by rw [this.2]; rfl⟩

/-- C5 as stated fails at `e` exactly 1000 ms: the reset bit reads set, the elapsed
time is exactly 1000 ms, and the step stays in WAIT_FOR_RESET instead of going to
RESET, because the code compares with `> 1000_ms`. -/
theorem RunImpl_WAIT_FOR_RESET_at_1000ms :
    (RegisterRead scripted datasheet.CNTL2 (resetPending 1000000)).1.val
        &&& datasheet.SOFT_RST.val ≠ 0 ∧
    (hrt_elapsed_time scripted (resetPending 1000000).m._reset_timestamp
        (RegisterRead scripted datasheet.CNTL2 (resetPending 1000000)).2).1 = ms 1000 ∧
    (RunImpl scripted datasheet (resetPending 1000000)).map (fun s => s.m._state)
      = some STATE.WAIT_FOR_RESET := by
  decide

/-- C6 (as amended): a CONFIGURE step always returns, and `Configure` succeeds
exactly when every entry's check returns true after all entries were applied. With
`e` the time elapsed since `_reset_timestamp`, read after `Configure`: on success
the next state is READ on a recurring 20 ms interval; on failure with
`e <= 1000 ms` the state stays CONFIGURE with a 100 ms delay; on failure with
`e > 1000 ms` the next state is RESET with a 100 ms delay. No other member
changes. -/
theorem RunImpl_CONFIGURE_transitions (P : Platform W) (cfg : Config) (s : Driver W)
    (hst : s.m._state = STATE.CONFIGURE) :
    ∃ s', RunImpl P cfg s = some s' ∧
      (Configure P cfg s).1 =
        (checkResults P cfg._register_cfg (applyAll P cfg._register_cfg s)).all id ∧
      ((Configure P cfg s).1 = true →
        s'.m = { s.m with _state := STATE.READ } ∧
        s'.trace = (Configure P cfg s).2.trace ++ [Event.ScheduleOnInterval (ms 20) (ms 20)]) ∧
      ((Configure P cfg s).1 = false →
        (hrt_elapsed_time P s.m._reset_timestamp (Configure P cfg s).2).1 ≤ ms 1000 →
        s'.m = s.m ∧
        s'.trace = (Configure P cfg s).2.trace ++ [Event.ScheduleDelayed (ms 100)]) ∧
      ((Configure P cfg s).1 = false →
        ms 1000 < (hrt_elapsed_time P s.m._reset_timestamp (Configure P cfg s).2).1 →
        s'.m = { s.m with _state := STATE.RESET } ∧
        s'.trace = (Configure P cfg s).2.trace ++ [Event.ScheduleDelayed (ms 100)]) := by
  simp only [RunImpl, hst, RunImpl_CONFIGURE, Configure_m]
  refine ⟨_, rfl, ?_, ?_, ?_, ?_⟩
  · simp [Configure, checkAll_fst]
  · intro h
    rw [if_pos h]
    exact ⟨rfl, by simp⟩
  · intro h he
    rw [if_neg (by simp [h]), if_neg (by omega)]
    exact ⟨by simp [Configure_m], by simp⟩
  · intro h he
    rw [if_neg (by simp [h]), if_pos he]
    exact ⟨by simp [Configure_m], by simp⟩

/-- C6 at a step taken 1000.001 ms after the reset started on a device that ignores
the configuration write: the machine goes to RESET. -/
theorem RunImpl_CONFIGURE_transitions_witness :
    ∃ s', RunImpl scripted datasheet (configureStuck 1000001) = some s' ∧
      s'.m._state = STATE.RESET ∧
      s'.trace = [Event.transfer [0x09] 1, Event.transfer [0x09, 0x01] 0,
        Event.transfer [0x09] 1, Event.set_scale 12000, Event.ScheduleDelayed 100000] := by
  obtain ⟨s', h, -, -, -, h4⟩ :=
    RunImpl_CONFIGURE_transitions scripted datasheet (configureStuck 1000001) rfl
  have := h4 (by decide) (by decide)
  exact ⟨s', h, by rw [this.1], by rw [this.2]; decide⟩

/-- C6 as stated fails at `e` exactly 1000 ms: `Configure` fails, the elapsed time is
exactly 1000 ms, and the step stays in CONFIGURE instead of going to RESET, because
the code compares with `> 1000_ms`. -/
theorem RunImpl_CONFIGURE_at_1000ms :
    (Configure scripted datasheet (configureStuck 1000000)).1 = false ∧
    (hrt_elapsed_time scripted (configureStuck 1000000).m._reset_timestamp
        (Configure scripted datasheet (configureStuck 1000000)).2).1 = ms 1000 ∧
    (RunImpl scripted datasheet (configureStuck 1000000)).map (fun s => s.m._state)
      = some STATE.CONFIGURE := by
  decide

/-! ## Claims about the register access layer -/

theorem setAndClear_val (cur setbits clearbits : uint8_t) :
    (setAndClear cur setbits clearbits).val =
      (cur.val &&& (255 ^^^ clearbits.val)) ||| setbits.val := by
  have h1 : cur.val &&& (255 ^^^ clearbits.val) < 2 ^ 8 :=
    lt_of_le_of_lt Nat.and_le_left cur.isLt
  have h2 : setbits.val < 2 ^ 8 := setbits.isLt
  have h3 := Nat.or_lt_two_pow h1 h2
  simp only [setAndClear, Fin.ofNat, Fin.val_mk]
  exact Nat.mod_eq_of_lt h3

theorem testBit_255 (i : Nat) : Nat.testBit 255 i = decide (i < 8) := by
  have : (255 : Nat) = 2 ^ 8 - 1 := by norm_num
  rw [this, Nat.testBit_two_pow_sub_one]

theorem byte_testBit_ge (b : uint8_t) (i : Nat) (h : 8 ≤ i) : b.val.testBit i = false := by
  apply Nat.testBit_lt_two_pow
  have h8 : (2 : Nat) ^ 8 ≤ 2 ^ i := Nat.pow_le_pow_right (by norm_num) h
  exact lt_of_lt_of_le b.isLt h8

theorem setAndClear_testBit (cur setbits clearbits : uint8_t) (i : Nat) :
    (setAndClear cur setbits clearbits).val.testBit i =
      ((cur.val.testBit i && !clearbits.val.testBit i) || setbits.val.testBit i) := by
  rw [setAndClear_val, Nat.testBit_or, Nat.testBit_and, Nat.testBit_xor, testBit_255]
  by_cases h : i < 8
  · simp [h]
  · simp [h, byte_testBit_ge cur i (by omega), byte_testBit_ge clearbits i (by omega)]

theorem and_eq_iff_testBit (v m : Nat) :
    v &&& m = m ↔ ∀ i, m.testBit i = true → v.testBit i = true := by
  constructor
  · intro h i hi
    have := congrArg (fun x => x.testBit i) h
    simp only [Nat.testBit_and, hi, Bool.and_true] at this
    exact this
  · intro h
    apply Nat.eq_of_testBit_eq
    intro i
    rw [Nat.testBit_and]
    cases hm : m.testBit i
    · simp
    · simp [h i hm]

theorem and_eq_zero_iff_testBit (v m : Nat) :
    v &&& m = 0 ↔ ∀ i, m.testBit i = true → v.testBit i = false := by
  constructor
  · intro h i hi
    have := congrArg (fun x => x.testBit i) h
    simp only [Nat.testBit_and, hi, Bool.and_true, Nat.zero_testBit] at this
    exact this
  · intro h
    apply Nat.eq_of_testBit_eq
    intro i
    rw [Nat.testBit_and, Nat.zero_testBit]
    cases hm : m.testBit i
    · simp
    · simp [h i hm]

theorem RegisterCheck_fst (P : Platform W) (e : register_config_t) (s : Driver W) :
    (RegisterCheck P e s).1 = true ↔
      ((RegisterRead P e.reg s).1.val &&& e.set_bits.val = e.set_bits.val ∧
        (RegisterRead P e.reg s).1.val &&& e.clear_bits.val = 0) := by
  simp only [RegisterCheck]
  constructor
  · intro h
    split at h
    · exact absurd h (by simp)
    · rename_i hc
      split at h
      · exact absurd h (by simp)
      · rename_i hs
        constructor
        · by_contra hne
          apply hs
          refine ⟨?_, hne⟩
          intro h0
          apply hne
          simp [h0]
        · by_contra hne
          apply hc
          refine ⟨?_, hne⟩
          intro h0
          apply hne
          simp [h0]
  · intro h
    rw [if_neg (by simp [h.2]), if_neg (by simp [h.1])]

/-- C7: `RegisterCheck` returns true exactly when `(v & set_bits) == set_bits` and
`(v & clear_bits) == 0` for the byte `v` its register read returns; it returns
false exactly when a bit of `set_bits` is missing from `v` or a bit of `clear_bits`
is present in `v`. Its only bus traffic is one read of the entry's register, and
no member changes. -/
theorem RegisterCheck_spec (P : Platform W) (e : register_config_t) (s : Driver W) :
    ((RegisterCheck P e s).1 = true ↔
      ((RegisterRead P e.reg s).1.val &&& e.set_bits.val = e.set_bits.val ∧
        (RegisterRead P e.reg s).1.val &&& e.clear_bits.val = 0)) ∧
    ((RegisterCheck P e s).1 = false ↔
      ((∃ i, e.set_bits.val.testBit i = true ∧
          (RegisterRead P e.reg s).1.val.testBit i = false) ∨
        (∃ i, e.clear_bits.val.testBit i = true ∧
          (RegisterRead P e.reg s).1.val.testBit i = true))) ∧
    (RegisterCheck P e s).2 = (RegisterRead P e.reg s).2 ∧
    (RegisterCheck P e s).2.trace = s.trace ++ [Event.transfer [e.reg] 1] ∧
    (RegisterCheck P e s).2.world = (P.transfer [e.reg] 1 s.world).2 ∧
    (RegisterCheck P e s).2.m = s.m := by
  refine ⟨RegisterCheck_fst P e s, ?_, rfl, rfl, rfl, rfl⟩
  rw [← Bool.not_eq_true, RegisterCheck_fst, and_eq_iff_testBit, and_eq_zero_iff_testBit]
  constructor
  · intro h
    by_contra hcon
    push_neg at hcon
    apply h
    constructor
    · intro i hi
      by_contra hv
      exact hcon.1 i hi (by simpa using hv)
    · intro i hi
      by_contra hv
      exact hcon.2 i hi (by simpa using hv)
  · rintro (⟨i, hi, hv⟩ | ⟨i, hi, hv⟩) ⟨h1, h2⟩
    · simp [h1 i hi] at hv
    · simp [h2 i hi] at hv

/-- C8: `RegisterSetAndClearBits` reads the register once, computes the byte `val`
whose every bit is `(cur & ~clearbits) | setbits`, and then writes `val` to the same
address once if `val != cur` and not at all if `val == cur`; no member changes. -/
theorem RegisterSetAndClearBits_spec (P : Platform W) (reg setbits clearbits : uint8_t)
    (s : Driver W) :
    (∀ i, (setAndClear (RegisterRead P reg s).1 setbits clearbits).val.testBit i =
      (((RegisterRead P reg s).1.val.testBit i && !clearbits.val.testBit i)
        || setbits.val.testBit i)) ∧
    (setAndClear (RegisterRead P reg s).1 setbits clearbits ≠ (RegisterRead P reg s).1 →
      RegisterSetAndClearBits P reg setbits clearbits s =
        RegisterWrite P reg (setAndClear (RegisterRead P reg s).1 setbits clearbits)
          (RegisterRead P reg s).2 ∧
      (RegisterSetAndClearBits P reg setbits clearbits s).trace =
        s.trace ++ [Event.transfer [reg] 1,
          Event.transfer [reg, setAndClear (RegisterRead P reg s).1 setbits clearbits] 0]) ∧
    (setAndClear (RegisterRead P reg s).1 setbits clearbits = (RegisterRead P reg s).1 →
      RegisterSetAndClearBits P reg setbits clearbits s = (RegisterRead P reg s).2 ∧
      (RegisterSetAndClearBits P reg setbits clearbits s).trace =
        s.trace ++ [Event.transfer [reg] 1]) ∧
    (RegisterSetAndClearBits P reg setbits clearbits s).m = s.m := by
  refine ⟨fun i => setAndClear_testBit _ _ _ i, ?_, ?_, RegisterSetAndClearBits_m P s _ _ _⟩
  · intro h
    simp only [RegisterSetAndClearBits]
    rw [if_pos (fun h' => h h'.symm)]
    exact ⟨rfl, by simp⟩
  · intro h
    simp only [RegisterSetAndClearBits]
    rw [if_neg (fun h' => h' h.symm)]
    exact ⟨rfl, by simp⟩

/-! ## Configuration on the faithful register store -/

theorem setAndClear_ext {a b : uint8_t} (h : ∀ i, a.val.testBit i = b.val.testBit i) : a = b :=
  Fin.ext (Nat.eq_of_testBit_eq h)

theorem and_testBit_of_eq_zero {a b : Nat} (h : a &&& b = 0) (i : Nat) :
    (a.testBit i && b.testBit i) = false := by
  rw [← Nat.testBit_and, h, Nat.zero_testBit]

theorem setAndClear_idem (v s c : uint8_t) :
    setAndClear (setAndClear v s c) s c = setAndClear v s c := by
  apply setAndClear_ext
  intro i
  simp only [setAndClear_testBit]
  cases v.val.testBit i <;> cases s.val.testBit i <;> cases c.val.testBit i <;> rfl

theorem setAndClear_stable (v s c s' c' : uint8_t) (hv : setAndClear v s c = v)
    (h1 : s.val &&& c'.val = 0) (h2 : s'.val &&& c.val = 0) :
    setAndClear (setAndClear v s' c') s c = setAndClear v s' c' := by
  apply setAndClear_ext
  intro i
  have hv' := congrArg (fun x : uint8_t => x.val.testBit i) hv
  have h1' := and_testBit_of_eq_zero h1 i
  have h2' := and_testBit_of_eq_zero h2 i
  simp only [setAndClear_testBit] at hv' ⊢
  revert hv' h1' h2'
  cases v.val.testBit i <;> cases s.val.testBit i <;> cases c.val.testBit i <;>
    cases s'.val.testBit i <;> cases c'.val.testBit i <;> simp

theorem RegisterRead_faithful (reg : uint8_t) (s : Driver Store) :
    RegisterRead faithful reg s =
      (s.world.regs reg, { s with trace := s.trace ++ [Event.transfer [reg] 1] }) := rfl

theorem RegisterSetAndClearBits_faithful_regs (reg a b : uint8_t) (s : Driver Store)
    (r : uint8_t) :
    (RegisterSetAndClearBits faithful reg a b s).world.regs r =
      if r = reg then setAndClear (s.world.regs reg) a b else s.world.regs r := by
  simp only [RegisterSetAndClearBits, RegisterRead_faithful]
  split
  · rfl
  · rename_i h
    split
    · rename_i hr
      rw [hr]
      exact not_not.mp h
    · rfl

theorem RegisterSetAndClearBits_faithful_of_sat (reg a b : uint8_t) (s : Driver Store)
    (h : setAndClear (s.world.regs reg) a b = s.world.regs reg) :
    RegisterSetAndClearBits faithful reg a b s =
      { s with trace := s.trace ++ [Event.transfer [reg] 1] } := by
  simp only [RegisterSetAndClearBits, RegisterRead_faithful]
  rw [if_neg (by simp [h])]

theorem satisfied_after_apply (e : register_config_t) (s : Driver Store) :
    satisfied e (RegisterSetAndClearBits faithful e.reg e.set_bits e.clear_bits s).world.regs := by
  unfold satisfied
  rw [RegisterSetAndClearBits_faithful_regs, if_pos rfl, setAndClear_idem]

theorem satisfied_preserved (d e : register_config_t) (s : Driver Store)
    (hc : compatible d e) (hd : satisfied d s.world.regs) :
    satisfied d (RegisterSetAndClearBits faithful e.reg e.set_bits e.clear_bits s).world.regs := by
  unfold satisfied at hd ⊢
  rw [RegisterSetAndClearBits_faithful_regs]
  split
  · rename_i hr
    rw [← hr]
    exact setAndClear_stable _ _ _ _ _ hd (hc hr).1 (hc hr).2
  · exact hd

theorem applyAll_satisfies (l done : List register_config_t) (s : Driver Store)
    (hl : l.Pairwise compatible) (hdl : ∀ d ∈ done, ∀ e ∈ l, compatible d e)
    (hd : ∀ d ∈ done, satisfied d s.world.regs) :
    ∀ d ∈ done ++ l, satisfied d (applyAll faithful l s).world.regs := by
  induction l generalizing done s with
  | nil => simpa [applyAll] using hd
  | cons e l ih =>
    rw [List.pairwise_cons] at hl
    intro d hmem
    simp only [applyAll]
    apply ih (done ++ [e]) _ hl.2
    · intro d hd' x hx
      rcases List.mem_append.mp hd' with h | h
      · exact hdl d h x (List.mem_cons_of_mem _ hx)
      · rw [List.mem_singleton.mp h]
        exact hl.1 x hx
    · intro d hd'
      rcases List.mem_append.mp hd' with h | h
      · exact satisfied_preserved d e s (hdl d h e (List.mem_cons_self _ _)) (hd d h)
      · rw [List.mem_singleton.mp h]
        exact satisfied_after_apply e s
    · simpa using hmem

theorem applyAll_of_satisfied (l : List register_config_t) (s : Driver Store)
    (h : ∀ e ∈ l, satisfied e s.world.regs) :
    applyAll faithful l s =
      { s with trace := s.trace ++ l.map (fun e => Event.transfer [e.reg] 1) } := by
  induction l generalizing s with
  | nil => simp [applyAll]
  | cons e l ih =>
    simp only [applyAll]
    rw [RegisterSetAndClearBits_faithful_of_sat _ _ _ _ (h e (List.mem_cons_self _ _))]
    have := ih { s with trace := s.trace ++ [Event.transfer [e.reg] 1] }
      (fun x hx => h x (List.mem_cons_of_mem _ hx))
    rw [this]
    simp

theorem writes_append (l l' : List Event) : writes (l ++ l') = writes l ++ writes l' := by
  simp [writes]

theorem writes_reads (l : List register_config_t) :
    writes (l.map (fun e => Event.transfer [e.reg] 1)) = [] := by
  induction l with
  | nil => rfl
  | cons e l ih => simp [writes, isWrite]

/-- C9 (as amended): on the faithful register store, for every table in which no
entry sets a bit that another entry of the same register clears, and for every
initial register contents, the second of two consecutive "apply all entries"
passes consists of one register read per entry in table order: it issues no
register write and leaves every register as the first pass left it. -/
theorem applyAll_twice_no_writes (table : List register_config_t) (s : Driver Store)
    (h : table.Pairwise compatible) :
    (applyAll faithful table (applyAll faithful table s)).trace =
      (applyAll faithful table s).trace ++ table.map (fun e => Event.transfer [e.reg] 1) ∧
    writes (applyAll faithful table (applyAll faithful table s)).trace =
      writes (applyAll faithful table s).trace ∧
    (applyAll faithful table (applyAll faithful table s)).world =
      (applyAll faithful table s).world := by
  have hsat : ∀ e ∈ table, satisfied e (applyAll faithful table s).world.regs := by
    simpa using applyAll_satisfies table [] s h (by simp) (by simp)
  rw [applyAll_of_satisfied table _ hsat]
  exact ⟨rfl, by simp [writes_append, writes_reads], rfl⟩

/-- C9 on a three-register table with every register holding `0xAA`: the first
pass writes three registers, the second pass reads the three registers and writes
none. -/
theorem applyAll_twice_no_writes_witness :
    writes (applyAll faithful sampleTable (initial STATE.CONFIGURE (constStore 0xAA))).trace =
      [Event.transfer [0x09, 0x0F] 0, Event.transfer [0x0A, 0x6A] 0,
        Event.transfer [0x0B, 0xAB] 0] ∧
    (applyAll faithful sampleTable
        (applyAll faithful sampleTable (initial STATE.CONFIGURE (constStore 0xAA)))).trace =
      (applyAll faithful sampleTable (initial STATE.CONFIGURE (constStore 0xAA))).trace ++
        [Event.transfer [0x09] 1, Event.transfer [0x0A] 1, Event.transfer [0x0B] 1] :=
  ⟨by decide,
    (applyAll_twice_no_writes sampleTable (initial STATE.CONFIGURE (constStore 0xAA))
      (by decide)).1⟩

/-- C9 as stated fails on a table whose two entries fight over bit 0 of one
register, all registers initially zero: the first pass issues two writes and the
second pass issues two more. -/
theorem applyAll_twice_writes_again :
    writes (applyAll faithful fightingTable (initial STATE.CONFIGURE (constStore 0))).trace =
      [Event.transfer [0x09, 0x01] 0, Event.transfer [0x09, 0x00] 0] ∧
    writes (applyAll faithful fightingTable
        (applyAll faithful fightingTable (initial STATE.CONFIGURE (constStore 0)))).trace =
      [Event.transfer [0x09, 0x01] 0, Event.transfer [0x09, 0x00] 0,
        Event.transfer [0x09, 0x01] 0, Event.transfer [0x09, 0x00] 0] := by
  decide

/-! ## Round-robin validation -/

theorem run_succ (P : Platform W) (cfg : Config) (n : Nat) (s : Driver W) :
    run P cfg (n + 1) s = (run P cfg n s).bind (RunImpl P cfg) := by
  induction n generalizing s with
  | zero => simp [run]
  | succ n ih =>
    show (RunImpl P cfg s).bind (run P cfg (n + 1)) =
      ((RunImpl P cfg s).bind (run P cfg n)).bind (RunImpl P cfg)
    cases h : RunImpl P cfg s with
    | none => rfl
    | some s1 => exact ih s1

theorem READ_threshold_trace_cons (X : Driver W) (base : List Event) (e : Event)
    (hX : X.trace = base ++ [e]) : ∃ rest, (READ_threshold X).trace = base ++ e :: rest := by
  obtain ⟨rest, h⟩ := READ_threshold_extends X
  exact ⟨rest, by rw [h, hX, List.append_assoc]; rfl⟩

/-- A READ step that takes the register-check branch with the index inside the
table returns, and the register read of the entry at the index follows the sample
on the trace; if the machine is still in READ afterwards the index has advanced
by one modulo the table size. -/
theorem RunImpl_READ_check (P : Platform W) (cfg : Config) (s : Driver W)
    (hst : s.m._state = STATE.READ) (hdue : checkRuns P cfg s = true)
    (hidx : s.m._checked_register < cfg.size_register_cfg) :
    ∃ e s', cfg._register_cfg[s.m._checked_register]? = some e ∧
      RunImpl P cfg s = some s' ∧
      (∃ rest, s'.trace = (READ_sample P cfg s).s.trace ++ Event.transfer [e.reg] 1 :: rest) ∧
      (s'.m._state = STATE.READ →
        s'.m._checked_register = (s.m._checked_register + 1) % cfg.size_register_cfg) := by
  have hi : s.m._checked_register < cfg._register_cfg.length := hidx
  have heq : (checkDue P (READ_sample P cfg s).failure (READ_sample P cfg s).s).2.m._checked_register
      = s.m._checked_register := by
    rw [checkDue_m, READ_sample_checked]
  refine ⟨cfg._register_cfg[s.m._checked_register], ?_⟩
  unfold checkRuns at hdue
  unfold RunImpl
  rw [hst]
  simp only [RunImpl_READ]
  rw [if_pos hdue, heq, List.getElem?_eq_getElem hi]
  simp only
  split
  · refine ⟨_, trivial, rfl, ?_, ?_⟩
    · exact READ_threshold_trace_cons _ _ _ (by simp)
    · intro _
      rw [READ_threshold_checked]
      simp [READ_sample_checked]
  · refine ⟨_, trivial, rfl, ⟨[Event.perf_count PerfCounter._bad_register_perf,
      Event.ScheduleClear, Event.ScheduleNow], by simp⟩, ?_⟩
    intro h
    simp [Reset] at h

theorem round_robin_index (P : Platform W) (cfg : Config) (s : Driver W)
    (hidx : s.m._checked_register < cfg.size_register_cfg)
    (hrun : ∀ j < cfg.size_register_cfg, ∃ sj, run P cfg j s = some sj ∧
      sj.m._state = STATE.READ ∧ checkRuns P cfg sj = true) :
    ∀ j < cfg.size_register_cfg, ∃ sj, run P cfg j s = some sj ∧
      sj.m._state = STATE.READ ∧ checkRuns P cfg sj = true ∧
      sj.m._checked_register = (s.m._checked_register + j) % cfg.size_register_cfg := by
  intro j
  induction j with
  | zero =>
    intro hj
    obtain ⟨s0, h0, hst, hdue⟩ := hrun 0 hj
    cases h0
    exact ⟨s, rfl, hst, hdue, by rw [Nat.add_zero, Nat.mod_eq_of_lt hidx]⟩
  | succ j ih =>
    intro hj
    obtain ⟨sj, hj1, hst, hdue, hi⟩ := ih (by omega)
    obtain ⟨s1, h1, hst1, hdue1⟩ := hrun (j + 1) hj
    have hlt : sj.m._checked_register < cfg.size_register_cfg := by
      rw [hi]; exact Nat.mod_lt _ (by omega)
    obtain ⟨e, s', -, hs', -, hnext⟩ := RunImpl_READ_check P cfg sj hst hdue hlt
    rw [run_succ, hj1, Option.some_bind, hs'] at h1
    cases h1
    refine ⟨s1, by rw [run_succ, hj1, Option.some_bind, hs'], hst1, hdue1, ?_⟩
    rw [hnext hst1, hi, Nat.add_mod, Nat.mod_mod, ← Nat.add_mod, Nat.add_assoc]

/-- C10 (as amended): for a table of size `N >= 1` with the round-robin index inside
it, over `N` consecutive steps each taken in READ and each taking the
register-check branch (the sample transfer failed, or more than 100 ms have passed
since the last check), every table entry `k` is validated at least once: at some
step `j < N` the index is `k`, and the register read of entry `k` follows the
sample transfer on that step's trace. -/
theorem round_robin_coverage (P : Platform W) (cfg : Config) (s : Driver W)
    (hidx : s.m._checked_register < cfg.size_register_cfg)
    (hrun : ∀ j < cfg.size_register_cfg, ∃ sj, run P cfg j s = some sj ∧
      sj.m._state = STATE.READ ∧ checkRuns P cfg sj = true) :
    ∀ k < cfg.size_register_cfg, ∃ j < cfg.size_register_cfg, ∃ sj e s',
      run P cfg j s = some sj ∧ sj.m._checked_register = k ∧
      cfg._register_cfg[k]? = some e ∧ RunImpl P cfg sj = some s' ∧
      ∃ rest, s'.trace = (READ_sample P cfg sj).s.trace ++ Event.transfer [e.reg] 1 :: rest := by
  intro k hk
  have hN : 0 < cfg.size_register_cfg := by omega
  have hj : (k + cfg.size_register_cfg - s.m._checked_register) % cfg.size_register_cfg
      < cfg.size_register_cfg := Nat.mod_lt _ hN
  obtain ⟨sj, hsj, hst, hdue, hi⟩ := round_robin_index P cfg s hidx hrun _ hj
  have hik : sj.m._checked_register = k := by
    rw [hi, Nat.add_mod, Nat.mod_mod, ← Nat.add_mod]
    have : s.m._checked_register + (k + cfg.size_register_cfg - s.m._checked_register)
        = k + cfg.size_register_cfg := by omega
    rw [this, Nat.add_mod_right, Nat.mod_eq_of_lt hk]
  obtain ⟨e, s', he, hs', htr, -⟩ := RunImpl_READ_check P cfg sj hst hdue (by rw [hik]; exact hk)
  rw [hik] at he
  exact ⟨_, hj, sj, e, s', hsj, hik, he, hs', htr⟩

/-- C10 on the three-entry table with three steps whose sample transfer fails: each
of the three entries is validated within the three steps. -/
theorem round_robin_coverage_witness :
    (∃ j < 3, ∃ sj e s',
      run scripted sampleConfig j roundRobinDriver = some sj ∧ sj.m._checked_register = 0 ∧
      sampleTable[0]? = some e ∧ RunImpl scripted sampleConfig sj = some s' ∧
      ∃ rest, s'.trace =
        (READ_sample scripted sampleConfig sj).s.trace ++ Event.transfer [e.reg] 1 :: rest) ∧
    (∃ j < 3, ∃ sj e s',
      run scripted sampleConfig j roundRobinDriver = some sj ∧ sj.m._checked_register = 1 ∧
      sampleTable[1]? = some e ∧ RunImpl scripted sampleConfig sj = some s' ∧
      ∃ rest, s'.trace =
        (READ_sample scripted sampleConfig sj).s.trace ++ Event.transfer [e.reg] 1 :: rest) ∧
    (∃ j < 3, ∃ sj e s',
      run scripted sampleConfig j roundRobinDriver = some sj ∧ sj.m._checked_register = 2 ∧
      sampleTable[2]? = some e ∧ RunImpl scripted sampleConfig sj = some s' ∧
      ∃ rest, s'.trace =
        (READ_sample scripted sampleConfig sj).s.trace ++ Event.transfer [e.reg] 1 :: rest) := by
  have h := round_robin_coverage scripted sampleConfig roundRobinDriver (by decide) (by
    intro j hj
    have hj' : j < 3 := hj
    interval_cases j
    · exact ⟨_, rfl, by decide, by decide⟩
    · exact ⟨_, rfl, by decide, by decide⟩
    · exact ⟨_, rfl, by decide, by decide⟩)
  exact ⟨h 0 (by decide), h 1 (by decide), h 2 (by decide)⟩

/-- C10 as stated fails for the one-entry table on a single READ step whose sample
transfer succeeds 5 ms after the last check: the register-check branch is not
taken, the machine stays in READ, and the only bus traffic of the step is the
sample transfer, so the entry is not validated. -/
theorem round_robin_skipped_when_not_due :
    datasheet.size_register_cfg = 1 ∧
    checkRuns scripted datasheet readyDriver = false ∧
    (run scripted datasheet 1 readyDriver).map (fun s => (s.m._state, s.trace)) =
      some (STATE.READ, [Event.transfer [0x00] 7]) := by
  decide

/-! ## Byte assembly -/

theorem shift_or_eq (msb lsb : uint8_t) :
    (msb.val <<< 8) ||| lsb.val = 256 * msb.val + lsb.val := by
  have h : lsb.val < 2 ^ 8 := lsb.isLt
  rw [Nat.shiftLeft_eq, Nat.mul_comm, ← Nat.mul_add_lt_is_or h]

theorem combine_eq (msb lsb : uint8_t) :
    combine msb lsb =
      if msb.val < 128 then (256 * msb.val + lsb.val : Int)
      else 256 * msb.val + lsb.val - 65536 := by
  have hm := msb.isLt
  have hl := lsb.isLt
  unfold combine toInt16
  rw [shift_or_eq]
  push_cast
  split <;> split <;> omega

/-- C15: for all bytes `msb`, `lsb`, `combine msb lsb` is the two's-complement
reading of the 16-bit word `(msb << 8) | lsb = 256 * msb + lsb`: the word itself
when `msb < 128` and the word minus 65536 otherwise. It lies in
`[-32768, 32767]`, different byte pairs give different values (the low byte is
the least significant one), and every value of the range is reached. -/
theorem combine_spec :
    (∀ msb lsb : uint8_t,
      (msb.val <<< 8) ||| lsb.val = 256 * msb.val + lsb.val ∧
      combine msb lsb =
        (if msb.val < 128 then (256 * msb.val + lsb.val : Int)
          else 256 * msb.val + lsb.val - 65536) ∧
      -32768 ≤ combine msb lsb ∧ combine msb lsb ≤ 32767) ∧
    (∀ msb lsb msb' lsb' : uint8_t,
      combine msb lsb = combine msb' lsb' → msb = msb' ∧ lsb = lsb') ∧
    (∀ v : Int, -32768 ≤ v → v ≤ 32767 → ∃ msb lsb : uint8_t, combine msb lsb = v) := by
  refine ⟨fun msb lsb => ⟨shift_or_eq msb lsb, combine_eq msb lsb, combine_range msb lsb⟩,
    ?_, ?_⟩
  · intro msb lsb msb' lsb' h
    have hm := msb.isLt
    have hl := lsb.isLt
    have hm' := msb'.isLt
    have hl' := lsb'.isLt
    rw [combine_eq, combine_eq] at h
    constructor <;> apply Fin.ext <;> (split at h <;> split at h <;> omega)
  · intro v h1 h2
    have hw : (v % 65536).toNat < 65536 := by omega
    refine ⟨⟨(v % 65536).toNat / 256, by omega⟩, ⟨(v % 65536).toNat % 256, by omega⟩, ?_⟩
    rw [combine_eq]
    simp only
    split <;> omega

/-- C15 at the words `0x1000`, `0xFFFF` and `0x8000`. -/
theorem combine_spec_witness :
    combine 0x10 0x00 = 4096 ∧ combine 0xFF 0xFF = -1 ∧ combine 0x80 0x00 = -32768 :=
  ⟨by rw [(combine_spec.1 0x10 0x00).2.1]; decide,
   by rw [(combine_spec.1 0xFF 0xFF).2.1]; decide,
   by rw [(combine_spec.1 0x80 0x00).2.1]; decide⟩

/-! ## Claims about the RESET case and the register check of the READ case -/

/-- C16: one step from RESET, whatever the counters, the timestamps and the outcome
of the bus write: the step returns; its bus traffic is the single write of
`SOFT_RST` to `CNTL2`; `_reset_timestamp` is the clock reading taken after the
write, `_consecutive_failures` is 0 and the state is WAIT_FOR_RESET; the
round-robin index and the two other timestamps are unchanged; and the step asks
to be run again after 100 ms. -/
theorem RunImpl_RESET_spec (P : Platform W) (cfg : Config) (s : Driver W)
    (hst : s.m._state = STATE.RESET) :
    ∃ s', RunImpl P cfg s = some s' ∧
      s'.trace = s.trace ++
        [Event.transfer [cfg.CNTL2, cfg.SOFT_RST] 0, Event.ScheduleDelayed (ms 100)] ∧
      s'.m._reset_timestamp =
        (hrt_absolute_time P (RegisterWrite P cfg.CNTL2 cfg.SOFT_RST s)).1 ∧
      s'.m._consecutive_failures = 0 ∧
      s'.m._state = STATE.WAIT_FOR_RESET ∧
      s'.m._checked_register = s.m._checked_register ∧
      s'.m._last_config_check_timestamp = s.m._last_config_check_timestamp ∧
      s'.m._temperature_update_timestamp = s.m._temperature_update_timestamp := by
  simp only [RunImpl, hst]
  exact ⟨_, rfl, by simp [RunImpl_RESET], rfl, rfl, rfl, rfl, rfl, rfl⟩

/-- C16 at a RESET step whose bus write fails, with the clock reading 7000. -/
theorem RunImpl_RESET_spec_witness :
    ∃ s', RunImpl scripted datasheet resetDriver = some s' ∧
      s'.m = { _state := STATE.WAIT_FOR_RESET, _reset_timestamp := 7000,
               _last_config_check_timestamp := 22, _temperature_update_timestamp := 33,
               _consecutive_failures := 0, _checked_register := 0 } ∧
      s'.trace = [Event.transfer [0x0A, 0x80] 0, Event.ScheduleDelayed 100000] := by
  obtain ⟨s', h, h1, h2, h3, h4, h5, h6, h7⟩ :=
    RunImpl_RESET_spec scripted datasheet resetDriver rfl
  refine ⟨s', h, ?_, by rw [h1]; rfl⟩
  cases hm : s'.m
  simp only [hm] at h2 h3 h4 h5 h6 h7
  subst h2 h3 h4 h5 h6 h7
  rfl

/-- C12: a READ step that takes the register-check branch on the entry `e` at the
round-robin index `i` (table size `N`) always returns. If the check passes, the
index becomes `(i + 1) mod N` and `_last_config_check_timestamp` becomes the
step's sample timestamp. If the check fails, the state becomes RESET, the events
after the sample are exactly the register read, the `_bad_register_perf` count
and the `ScheduleClear`, `ScheduleNow` of one `Reset()` (so no temperature
transfer and no second `Reset()` from the threshold test, whatever the counter),
and no member other than the state differs from what the sample left: the index
and the last-check and temperature timestamps are those of the start of the
step. -/
theorem READ_register_check_outcome (P : Platform W) (cfg : Config) (s : Driver W)
    (hst : s.m._state = STATE.READ) (hdue : checkRuns P cfg s = true)
    (hidx : s.m._checked_register < cfg.size_register_cfg) :
    ∃ e s', cfg._register_cfg[s.m._checked_register]? = some e ∧
      RunImpl P cfg s = some s' ∧
      ((RegisterCheck P e
          (checkDue P (READ_sample P cfg s).failure (READ_sample P cfg s).s).2).1 = true →
        s'.m._checked_register = (s.m._checked_register + 1) % cfg.size_register_cfg ∧
        s'.m._last_config_check_timestamp = (READ_sample P cfg s).timestamp_sample) ∧
      ((RegisterCheck P e
          (checkDue P (READ_sample P cfg s).failure (READ_sample P cfg s).s).2).1 = false →
        s'.m._state = STATE.RESET ∧
        s'.trace = (READ_sample P cfg s).s.trace ++
          [Event.transfer [e.reg] 1, Event.perf_count PerfCounter._bad_register_perf,
            Event.ScheduleClear, Event.ScheduleNow] ∧
        s'.m = { (READ_sample P cfg s).s.m with _state := STATE.RESET } ∧
        s'.m._checked_register = s.m._checked_register ∧
        s'.m._last_config_check_timestamp = s.m._last_config_check_timestamp ∧
        s'.m._temperature_update_timestamp = s.m._temperature_update_timestamp) := by
  have hi : s.m._checked_register < cfg._register_cfg.length := hidx
  have heq : (checkDue P (READ_sample P cfg s).failure
      (READ_sample P cfg s).s).2.m._checked_register = s.m._checked_register := by
    rw [checkDue_m, READ_sample_checked]
  have hm := READ_sample_m P cfg s
  refine ⟨cfg._register_cfg[s.m._checked_register], ?_⟩
  unfold checkRuns at hdue
  unfold RunImpl
  rw [hst]
  simp only [RunImpl_READ]
  rw [if_pos hdue, heq, List.getElem?_eq_getElem hi]
  simp only
  split
  · rename_i hc
    refine ⟨_, trivial, rfl, ?_, ?_⟩
    · intro _
      unfold READ_threshold
      split
      · simp [Reset, READ_sample_checked]
      · simp [READ_sample_checked]
    · intro h
      rw [hc] at h
      exact absurd h (by simp)
  · rename_i hc
    refine ⟨_, trivial, rfl, ?_, ?_⟩
    · intro h
      exact absurd h hc
    · intro _
      refine ⟨rfl, by simp, by simp [Reset], ?_, ?_, ?_⟩
      · simp [Reset, READ_sample_checked]
      · simp only [Reset, emit_m, RegisterCheck_m, checkDue_m]
        rw [hm]; split <;> rfl
      · simp only [Reset, emit_m, RegisterCheck_m, checkDue_m]
        rw [hm]; split <;> rfl

/-- C12 at a READ step whose sample transfer fails and whose register read returns
`0x00` against the entry `(0x09, set 0x01, clear 0x00)`: the machine goes to RESET
with one `Reset()` and the index and timestamps untouched. -/
theorem READ_register_check_outcome_witness :
    ∃ s', RunImpl scripted datasheet checkFailsDriver = some s' ∧
      s'.m = { checkFailsDriver.m with _state := STATE.RESET } ∧
      s'.trace = [Event.transfer [0x00] 7, Event.perf_count PerfCounter._bad_transfer_perf,
        Event.transfer [0x09] 1, Event.perf_count PerfCounter._bad_register_perf,
        Event.ScheduleClear, Event.ScheduleNow] := by
  obtain ⟨e, s', he, h, -, hfail⟩ :=
    READ_register_check_outcome scripted datasheet checkFailsDriver rfl (by decide)
      (by decide)
  have he' : e = { reg := 0x09, set_bits := 0x01, clear_bits := 0x00 } := by
    have : datasheet._register_cfg[checkFailsDriver.m._checked_register]? =
        some { reg := 0x09, set_bits := 0x01, clear_bits := 0x00 } := by decide
    rw [this] at he
    exact (Option.some.inj he).symm
  subst he'
  obtain ⟨-, htr, hm, -⟩ := hfail (by decide)
  exact ⟨s', h, by rw [hm]; decide, by rw [htr]; decide⟩

/-! ## Register reads and transport failures -/

/-- C14 (as amended): `RegisterRead` returns the zero-initialised buffer as the bus
left it and does not look at the transfer's result. So a WAIT_FOR_RESET step whose
register-read transfer fails and leaves a byte with `SOFT_RST` clear in the buffer
(the untouched zero in particular) takes the transition to CONFIGURE with a 1 ms
delay, exactly as after a successful read of such a byte. -/
theorem WAIT_FOR_RESET_failed_read (P : Platform W) (cfg : Config) (s : Driver W)
    (hst : s.m._state = STATE.WAIT_FOR_RESET)
    (_hfail : (P.transfer [cfg.CNTL2] 1 s.world).1.1 = false)
    (hbit : ((P.transfer [cfg.CNTL2] 1 s.world).1.2.getD 0 0).val &&& cfg.SOFT_RST.val = 0) :
    (RegisterRead P cfg.CNTL2 s).1 = (P.transfer [cfg.CNTL2] 1 s.world).1.2.getD 0 0 ∧
    ∃ s', RunImpl P cfg s = some s' ∧
      s'.m = { s.m with _state := STATE.CONFIGURE } ∧
      s'.trace = s.trace ++ [Event.transfer [cfg.CNTL2] 1, Event.ScheduleDelayed (ms 1)] := by
  refine ⟨rfl, ?_⟩
  have hb : (RegisterRead P cfg.CNTL2 s).1.val &&& cfg.SOFT_RST.val = 0 := hbit
  simp only [RunImpl, hst, RunImpl_WAIT_FOR_RESET, if_pos hb]
  exact ⟨_, rfl, rfl, by simp⟩

/-- C14 (amended) at a WAIT_FOR_RESET step whose register read fails with nothing
delivered: the read value is 0 and the machine moves to CONFIGURE. -/
theorem WAIT_FOR_RESET_failed_read_witness :
    (RegisterRead scripted datasheet.CNTL2 resetReadFails).1 = 0 ∧
    ∃ s', RunImpl scripted datasheet resetReadFails = some s' ∧
      s'.m._state = STATE.CONFIGURE ∧
      s'.trace = [Event.transfer [0x0A] 1, Event.ScheduleDelayed 1000] := by
  obtain ⟨h0, s', h, hm, htr⟩ :=
    WAIT_FOR_RESET_failed_read scripted datasheet resetReadFails rfl (by decide) (by decide)
  exact ⟨by rw [h0]; decide, s', h, by rw [hm], by rw [htr]; decide⟩

/-- C14 as stated fails: the register-read transfer of a WAIT_FOR_RESET step fails,
`RegisterRead` returns 0 all the same, and the step takes the transition to
CONFIGURE that a successful read of a byte with `SOFT_RST` clear takes. -/
theorem WAIT_FOR_RESET_failed_read_configures :
    (scripted.transfer [datasheet.CNTL2] 1 resetReadFails.world).1.1 = false ∧
    (RegisterRead scripted datasheet.CNTL2 resetReadFails).1 = 0 ∧
    (RunImpl scripted datasheet resetReadFails).map (fun s => s.m._state)
      = some STATE.CONFIGURE := by
  decide

/-! ## Set-and-clear followed by a check on the faithful register store -/

theorem setAndClear_and_set (v s c : uint8_t) :
    (setAndClear v s c).val &&& s.val = s.val := by
  rw [and_eq_iff_testBit]
  intro i hi
  rw [setAndClear_testBit, hi, Bool.or_true]

theorem setAndClear_and_clear (v s c : uint8_t) (h : s.val &&& c.val = 0) :
    (setAndClear v s c).val &&& c.val = 0 := by
  rw [and_eq_zero_iff_testBit]
  intro i hi
  have hs := and_testBit_of_eq_zero h i
  rw [hi, Bool.and_true] at hs
  rw [setAndClear_testBit, hi, hs]
  simp

theorem setAndClear_and_clear_ne (v s c : uint8_t) (h : s.val &&& c.val ≠ 0) :
    (setAndClear v s c).val &&& c.val ≠ 0 := by
  intro h0
  apply h
  rw [and_eq_zero_iff_testBit] at h0 ⊢
  intro i hi
  have := h0 i hi
  rw [setAndClear_testBit] at this
  cases hs : s.val.testBit i
  · rfl
  · rw [hs, Bool.or_true] at this
    exact absurd this (by simp)

theorem RegisterCheck_faithful (e : register_config_t) (s : Driver Store) :
    (RegisterCheck faithful e s).2 =
      { s with trace := s.trace ++ [Event.transfer [e.reg] 1] } ∧
    ((RegisterCheck faithful e s).1 = true ↔
      ((s.world.regs e.reg).val &&& e.set_bits.val = e.set_bits.val ∧
        (s.world.regs e.reg).val &&& e.clear_bits.val = 0)) :=
  ⟨rfl, by rw [RegisterCheck_fst, RegisterRead_faithful]⟩

/-- C18: on the faithful register store, for every initial byte `cur` of the
register and masks with `set_bits & clear_bits == 0`, after
`RegisterSetAndClearBits` the register holds a byte `v` with
`(v & set_bits) == set_bits` and `(v & clear_bits) == 0` that agrees with `cur` on
every bit outside both masks; every other register is unchanged, as are the
clock and the members. -/
theorem RegisterSetAndClearBits_faithful_post (reg setbits clearbits : uint8_t)
    (s : Driver Store) (h : setbits.val &&& clearbits.val = 0) :
    ((RegisterSetAndClearBits faithful reg setbits clearbits s).world.regs reg).val
        &&& setbits.val = setbits.val ∧
    ((RegisterSetAndClearBits faithful reg setbits clearbits s).world.regs reg).val
        &&& clearbits.val = 0 ∧
    (∀ i, setbits.val.testBit i = false → clearbits.val.testBit i = false →
      ((RegisterSetAndClearBits faithful reg setbits clearbits s).world.regs reg).val.testBit i
        = (s.world.regs reg).val.testBit i) ∧
    (∀ r, r ≠ reg →
      (RegisterSetAndClearBits faithful reg setbits clearbits s).world.regs r
        = s.world.regs r) ∧
    (RegisterSetAndClearBits faithful reg setbits clearbits s).world.now = s.world.now ∧
    (RegisterSetAndClearBits faithful reg setbits clearbits s).m = s.m := by
  refine ⟨?_, ?_, ?_, ?_, ?_, RegisterSetAndClearBits_m faithful s reg setbits clearbits⟩
  · rw [RegisterSetAndClearBits_faithful_regs, if_pos rfl]
    exact setAndClear_and_set _ _ _
  · rw [RegisterSetAndClearBits_faithful_regs, if_pos rfl]
    exact setAndClear_and_clear _ _ _ h
  · intro i hs hc
    rw [RegisterSetAndClearBits_faithful_regs, if_pos rfl, setAndClear_testBit, hs, hc]
    simp
  · intro r hr
    rw [RegisterSetAndClearBits_faithful_regs, if_neg hr]
  · simp only [RegisterSetAndClearBits, RegisterRead_faithful]
    split <;> rfl

/-- C18 at register `0x09` holding `0xAA`, with `set_bits = 0x05` and
`clear_bits = 0xF0`: the register ends at `0x0F` and register `0x0A` keeps `0xAA`. -/
theorem RegisterSetAndClearBits_faithful_post_witness :
    (RegisterSetAndClearBits faithful 0x09 0x05 0xF0
      (initial STATE.CONFIGURE (constStore 0xAA))).world.regs 0x09 = 0x0F ∧
    (RegisterSetAndClearBits faithful 0x09 0x05 0xF0
      (initial STATE.CONFIGURE (constStore 0xAA))).world.regs 0x0A = 0xAA := by
  have h := RegisterSetAndClearBits_faithful_post 0x09 0x05 0xF0
    (initial STATE.CONFIGURE (constStore 0xAA)) (by decide)
  exact ⟨by decide, by rw [h.2.2.2.1 0x0A (by decide)]; rfl⟩

/-! ## Configure on the faithful register store -/

theorem RegisterCheck_fst_eq (P : Platform W) (e : register_config_t) (s : Driver W) :
    (RegisterCheck P e s).1 = passes e (RegisterRead P e.reg s).1 := by
  rw [Bool.eq_iff_iff, RegisterCheck_fst]
  simp [passes]

theorem checkResults_faithful (l : List register_config_t) (s : Driver Store) :
    checkResults faithful l s = l.map (fun e => passes e (s.world.regs e.reg)) := by
  induction l generalizing s with
  | nil => rfl
  | cons e l ih =>
    simp only [checkResults, List.map_cons]
    rw [RegisterCheck_fst_eq, (RegisterCheck_faithful e s).1, ih, RegisterRead_faithful]

theorem applyAll_append (P : Platform W) (l1 l2 : List register_config_t) (s : Driver W) :
    applyAll P (l1 ++ l2) s = applyAll P l2 (applyAll P l1 s) := by
  induction l1 generalizing s with
  | nil => rfl
  | cons e l ih =>
    show applyAll P (l ++ l2) (RegisterSetAndClearBits P e.reg e.set_bits e.clear_bits s) = _
    rw [ih]
    rfl

theorem applyAll_faithful_regs_of_ne (l : List register_config_t) (r : uint8_t)
    (s : Driver Store) (h : ∀ x ∈ l, x.reg ≠ r) :
    (applyAll faithful l s).world.regs r = s.world.regs r := by
  induction l generalizing s with
  | nil => rfl
  | cons e l ih =>
    simp only [applyAll]
    rw [ih _ (fun x hx => h x (List.mem_cons_of_mem _ hx)),
      RegisterSetAndClearBits_faithful_regs,
      if_neg (fun hr => h e (List.mem_cons_self _ _) hr.symm)]

theorem Configure_fst (P : Platform W) (cfg : Config) (s : Driver W) :
    (Configure P cfg s).1 =
      (checkResults P cfg._register_cfg (applyAll P cfg._register_cfg s)).all id := by
  simp [Configure, checkAll_fst]

/-- C13: on the faithful register store, for every one-entry table
`(reg, set_bits, clear_bits)` with `set_bits & clear_bits == 0` and every initial
register contents, `Configure()` returns true, and the CONFIGURE step returns
with the state READ and the recurring 20 ms schedule as its last call. -/
theorem Configure_faithful_single (cfg : Config) (e : register_config_t) (s : Driver Store)
    (hcfg : cfg._register_cfg = [e]) (hdisj : e.set_bits.val &&& e.clear_bits.val = 0)
    (hst : s.m._state = STATE.CONFIGURE) :
    (Configure faithful cfg s).1 = true ∧
    ∃ s', RunImpl faithful cfg s = some s' ∧
      s'.m = { s.m with _state := STATE.READ } ∧
      s'.trace = (Configure faithful cfg s).2.trace ++
        [Event.ScheduleOnInterval (ms 20) (ms 20)] := by
  have hc : (Configure faithful cfg s).1 = true := by
    rw [Configure_fst, hcfg, checkResults_faithful]
    simp only [applyAll, List.map_cons, List.map_nil, List.all_cons, List.all_nil, id,
      Bool.and_true, passes, decide_eq_true_eq]
    rw [RegisterSetAndClearBits_faithful_regs, if_pos rfl]
    exact ⟨setAndClear_and_set _ _ _, setAndClear_and_clear _ _ _ hdisj⟩
  refine ⟨hc, ?_⟩
  simp only [RunImpl, hst, RunImpl_CONFIGURE, if_pos hc]
  exact ⟨_, rfl, by simp [Configure_m], by simp⟩

/-- C13 at the table `[(CNTL1, set=0x01, clear=0x00)]` with every register
initially zero: one read, one write of `0x01`, one validating read, and READ
begins on the 20 ms interval. -/
theorem Configure_faithful_single_witness :
    ∃ s', RunImpl faithful datasheet (configureOn 0) = some s' ∧
      s'.m._state = STATE.READ ∧
      s'.trace = [Event.transfer [0x09] 1, Event.transfer [0x09, 0x01] 0,
        Event.transfer [0x09] 1, Event.set_scale 12000,
        Event.ScheduleOnInterval 20000 20000] := by
  obtain ⟨-, s', h, hm, htr⟩ :=
    Configure_faithful_single datasheet { reg := 0x09, set_bits := 0x01, clear_bits := 0x00 }
      (configureOn 0) rfl (by decide) rfl
  exact ⟨s', h, by rw [hm], by rw [htr]; decide⟩

/-- C19: on the faithful register store, for every entry with
`set_bits & clear_bits != 0` and every initial register contents,
`RegisterSetAndClearBits` followed by `RegisterCheck` on that entry returns false;
and `Configure()` returns false for every table in which such an entry is the
last one applied to its register. -/
theorem overlapping_masks_never_validate (e : register_config_t)
    (hov : e.set_bits.val &&& e.clear_bits.val ≠ 0) :
    (∀ s : Driver Store,
      (RegisterCheck faithful e
        (RegisterSetAndClearBits faithful e.reg e.set_bits e.clear_bits s)).1 = false) ∧
    (∀ (cfg : Config) (pre post : List register_config_t) (s : Driver Store),
      cfg._register_cfg = pre ++ e :: post → (∀ x ∈ post, x.reg ≠ e.reg) →
      (Configure faithful cfg s).1 = false) := by
  constructor
  · intro s
    rw [RegisterCheck_fst_eq, RegisterRead_faithful, RegisterSetAndClearBits_faithful_regs,
      if_pos rfl]
    simp only [passes, decide_eq_false_iff_not, not_and]
    exact fun _ => setAndClear_and_clear_ne _ _ _ hov
  · intro cfg pre post s hcfg hpost
    rw [Configure_fst, checkResults_faithful, List.all_eq_false]
    refine ⟨passes e ((applyAll faithful cfg._register_cfg s).world.regs e.reg), ?_, ?_⟩
    · rw [List.mem_map]
      exact ⟨e, by rw [hcfg]; simp, rfl⟩
    · have hregs : (applyAll faithful cfg._register_cfg s).world.regs e.reg =
          setAndClear ((applyAll faithful pre s).world.regs e.reg) e.set_bits e.clear_bits := by
        rw [hcfg, applyAll_append]
        simp only [applyAll]
        rw [applyAll_faithful_regs_of_ne post e.reg _ hpost,
          RegisterSetAndClearBits_faithful_regs, if_pos rfl]
      rw [hregs]
      simp only [id, passes, Bool.not_eq_true, decide_eq_false_iff_not, not_and]
      exact fun _ => setAndClear_and_clear_ne _ _ _ hov

/-- C19 at the entry `(0x0A, set=0x41, clear=0x81)`, whose masks overlap on bit 0,
in a three-entry table where it is the only entry on its register: the check
after set-and-clear fails and `Configure()` returns false, on registers all zero. -/
theorem overlapping_masks_never_validate_witness :
    (RegisterCheck faithful { reg := 0x0A, set_bits := 0x41, clear_bits := 0x81 }
      (RegisterSetAndClearBits faithful 0x0A 0x41 0x81 (configureOn 0))).1 = false ∧
    (Configure faithful { datasheet with _register_cfg := overlapTable }
      (configureOn 0)).1 = false := by
  have h := overlapping_masks_never_validate
    { reg := 0x0A, set_bits := 0x41, clear_bits := 0x81 } (by decide)
  exact ⟨h.1 (configureOn 0),
    h.2 { datasheet with _register_cfg := overlapTable }
      [{ reg := 0x09, set_bits := 0x05, clear_bits := 0xF0 }]
      [{ reg := 0x0B, set_bits := 0x01, clear_bits := 0x00 }] (configureOn 0) rfl
      (by decide)⟩

/-! ## The round-robin index -/

/-- A READ step that changes the round-robin index took the register-check branch
and the check passed. -/
theorem RunImpl_READ_checked_change (P : Platform W) (cfg : Config) (s s' : Driver W)
    (hst : s.m._state = STATE.READ) (hs : RunImpl P cfg s = some s')
    (hne : s'.m._checked_register ≠ s.m._checked_register) :
    checkRuns P cfg s = true ∧
    ∃ e, cfg._register_cfg[s.m._checked_register]? = some e ∧
      (RegisterCheck P e
        (checkDue P (READ_sample P cfg s).failure (READ_sample P cfg s).s).2).1 = true := by
  have heq : (checkDue P (READ_sample P cfg s).failure
      (READ_sample P cfg s).s).2.m._checked_register = s.m._checked_register := by
    rw [checkDue_m, READ_sample_checked]
  unfold RunImpl at hs
  rw [hst] at hs
  simp only [RunImpl_READ] at hs
  unfold checkRuns
  split at hs
  · rename_i hdue
    refine ⟨hdue, ?_⟩
    rw [heq] at hs
    cases hlook : cfg._register_cfg[s.m._checked_register]? with
    | none =>
      rw [hlook] at hs
      exact absurd hs (by simp)
    | some e =>
      rw [hlook] at hs
      simp only at hs
      refine ⟨e, rfl, ?_⟩
      split at hs
      · rename_i hc
        exact hc
      · cases hs
        exact absurd (by simp [Reset, READ_sample_checked]) hne
  · cases hs
    exact absurd (by rw [READ_threshold_checked, READ_temperature_checked, heq]) hne

/-- C20: for a table of size `N >= 1` and an index `_checked_register < N`, one step
from any state, on any platform, returns with the index still `< N`; the index
differs afterwards only if the step was a READ step whose register check ran and
passed; and any number of steps returns with the index `< N`, so that the lookup
`_register_cfg[_checked_register]` finds an entry. -/
theorem checked_register_in_bounds (P : Platform W) (cfg : Config) (s : Driver W)
    (hidx : s.m._checked_register < cfg.size_register_cfg) :
    (∃ s', RunImpl P cfg s = some s' ∧
      s'.m._checked_register < cfg.size_register_cfg ∧
      (s'.m._checked_register ≠ s.m._checked_register →
        s.m._state = STATE.READ ∧ checkRuns P cfg s = true ∧
        ∃ e, cfg._register_cfg[s.m._checked_register]? = some e ∧
          (RegisterCheck P e
            (checkDue P (READ_sample P cfg s).failure (READ_sample P cfg s).s).2).1 = true)) ∧
    (∀ n, ∃ s', run P cfg n s = some s' ∧
      s'.m._checked_register < cfg.size_register_cfg ∧
      ∃ e, cfg._register_cfg[s'.m._checked_register]? = some e) := by
  constructor
  · obtain ⟨s', hs, hlt, -⟩ := RunImpl_total P cfg s hidx
    refine ⟨s', hs, hlt, fun hne => ?_⟩
    have hst : s.m._state = STATE.READ := by
      by_contra hst
      apply hne
      unfold RunImpl at hs
      split at hs
      · cases hs; exact RunImpl_RESET_checked P cfg s
      · cases hs; exact RunImpl_WAIT_FOR_RESET_checked P cfg s
      · cases hs; exact RunImpl_CONFIGURE_checked P cfg s
      · rename_i h
        exact absurd h hst
    exact ⟨hst, RunImpl_READ_checked_change P cfg s s' hst hs hne⟩
  · intro n
    obtain ⟨s', hs, hlt, -⟩ := run_total P cfg n s hidx
    have hl : s'.m._checked_register < cfg._register_cfg.length := hlt
    exact ⟨s', hs, hlt, _, List.getElem?_eq_getElem hl⟩

/-- C20 on the three-entry table: after three steps with passing checks the index
is back at 0, inside the table. -/
theorem checked_register_in_bounds_witness :
    ∃ s', run scripted sampleConfig 3 roundRobinDriver = some s' ∧
      s'.m._checked_register < 3 ∧
      (run scripted sampleConfig 2 roundRobinDriver).map (fun s => s.m._checked_register)
        = some 2 := by
  obtain ⟨s', hs, hlt, -⟩ :=
    (checked_register_in_bounds scripted sampleConfig roundRobinDriver (by decide)).2 3
  exact ⟨s', hs, hlt, by decide⟩

/-! ## A clock that never goes back -/

section Clock

variable {P : Platform W} {lo : W → Nat} (hP : NonDecreasing P lo)
include hP

theorem lo_transfer (send : List uint8_t) (n : Nat) (s : Driver W) :
    lo s.world ≤ lo (transfer P send n s).2.2.world :=
  hP.transfer_le send n s.world

theorem lo_hrt_absolute_time (s : Driver W) :
    lo s.world ≤ (hrt_absolute_time P s).1 ∧
    (hrt_absolute_time P s).1 ≤ lo (hrt_absolute_time P s).2.world :=
  ⟨hP.reading_ge s.world, hP.reading_le s.world⟩

theorem lo_hrt_elapsed_time (t : Nat) (s : Driver W) :
    lo s.world ≤ lo (hrt_elapsed_time P t s).2.world :=
  Nat.le_trans (hP.reading_ge s.world) (hP.reading_le s.world)

theorem lo_RegisterRead (reg : uint8_t) (s : Driver W) :
    lo s.world ≤ lo (RegisterRead P reg s).2.world :=
  hP.transfer_le _ _ s.world

theorem lo_RegisterWrite (reg v : uint8_t) (s : Driver W) :
    lo s.world ≤ lo (RegisterWrite P reg v s).world :=
  hP.transfer_le _ _ s.world

theorem lo_RegisterCheck (e : register_config_t) (s : Driver W) :
    lo s.world ≤ lo (RegisterCheck P e s).2.world :=
  hP.transfer_le _ _ s.world

theorem lo_RegisterSetAndClearBits (reg a b : uint8_t) (s : Driver W) :
    lo s.world ≤ lo (RegisterSetAndClearBits P reg a b s).world := by
  simp only [RegisterSetAndClearBits]
  split
  · exact Nat.le_trans (lo_RegisterRead hP reg s) (lo_RegisterWrite hP _ _ _)
  · exact lo_RegisterRead hP reg s

theorem lo_applyAll (l : List register_config_t) (s : Driver W) :
    lo s.world ≤ lo (applyAll P l s).world := by
  induction l generalizing s with
  | nil => exact Nat.le_refl _
  | cons e l ih => exact Nat.le_trans (lo_RegisterSetAndClearBits hP _ _ _ s) (ih _)

theorem lo_checkAll (l : List register_config_t) (b : Bool) (s : Driver W) :
    lo s.world ≤ lo (checkAll P l b s).2.world := by
  induction l generalizing s b with
  | nil => exact Nat.le_refl _
  | cons e l ih => exact Nat.le_trans (lo_RegisterCheck hP e s) (ih _ _)

theorem lo_Configure (cfg : Config) (s : Driver W) :
    lo s.world ≤ lo (Configure P cfg s).2.world := by
  simp only [Configure, emit_world]
  exact Nat.le_trans (lo_applyAll hP _ s) (lo_checkAll hP _ _ _)

theorem lo_RunImpl_RESET (cfg : Config) (s : Driver W) :
    lo s.world ≤ lo (RunImpl_RESET P cfg s).world := by
  simp only [RunImpl_RESET, emit_world]
  exact Nat.le_trans (lo_RegisterWrite hP _ _ s)
    (Nat.le_trans (lo_hrt_absolute_time hP _).1 (lo_hrt_absolute_time hP _).2)

theorem lo_RunImpl_WAIT_FOR_RESET (cfg : Config) (s : Driver W) :
    lo s.world ≤ lo (RunImpl_WAIT_FOR_RESET P cfg s).world := by
  simp only [RunImpl_WAIT_FOR_RESET]
  split
  · exact lo_RegisterRead hP _ s
  · split <;>
      (refine Nat.le_trans (lo_RegisterRead hP cfg.CNTL2 s) ?_
       exact lo_hrt_elapsed_time hP 0 _)

theorem lo_RunImpl_CONFIGURE (cfg : Config) (s : Driver W) :
    lo s.world ≤ lo (RunImpl_CONFIGURE P cfg s).world := by
  simp only [RunImpl_CONFIGURE]
  split
  · exact lo_Configure hP cfg s
  · simp only [emit_world]
    split <;>
      (refine Nat.le_trans (lo_Configure hP cfg s) ?_
       exact lo_hrt_elapsed_time hP 0 _)

theorem lo_READ_sample (cfg : Config) (s : Driver W) :
    lo s.world ≤ (READ_sample P cfg s).timestamp_sample ∧
    (READ_sample P cfg s).timestamp_sample ≤ lo (READ_sample P cfg s).s.world := by
  have h1 := lo_hrt_absolute_time hP s
  have h2 := lo_transfer hP [cfg.X_LSB] 7 (hrt_absolute_time P s).2
  refine ⟨h1.1, ?_⟩
  simp only [READ_sample]
  split <;> split <;> exact Nat.le_trans h1.2 h2

theorem lo_checkDue (f : Bool) (s : Driver W) :
    lo s.world ≤ lo (checkDue P f s).2.world := by
  unfold checkDue
  split
  · exact Nat.le_refl _
  · exact lo_hrt_elapsed_time hP s.m._last_config_check_timestamp s

theorem lo_READ_temperature (cfg : Config) (t : Nat) (s : Driver W) :
    lo s.world ≤ lo (READ_temperature P cfg t s).world := by
  simp only [READ_temperature]
  have h1 := lo_hrt_elapsed_time hP s.m._temperature_update_timestamp s
  split
  · split
    · refine Nat.le_trans h1 ?_
      exact hP.transfer_le _ _ _
    · refine Nat.le_trans h1 ?_
      exact hP.transfer_le _ _ _
  · exact h1

end Clock

theorem READ_threshold_world (s : Driver W) : (READ_threshold s).world = s.world := by
  unfold READ_threshold
  split <;> rfl

theorem READ_threshold_temperature (s : Driver W) :
    (READ_threshold s).m._temperature_update_timestamp = s.m._temperature_update_timestamp := by
  unfold READ_threshold
  split <;> rfl

theorem READ_sample_temperature (P : Platform W) (cfg : Config) (s : Driver W) :
    (READ_sample P cfg s).s.m._temperature_update_timestamp
      = s.m._temperature_update_timestamp := by
  rw [READ_sample_m]; split <;> rfl

theorem RunImpl_WAIT_FOR_RESET_temperature (P : Platform W) (cfg : Config) (s : Driver W) :
    (RunImpl_WAIT_FOR_RESET P cfg s).m._temperature_update_timestamp
      = s.m._temperature_update_timestamp := by
  simp only [RunImpl_WAIT_FOR_RESET]
  split
  · rfl
  · split <;> rfl

theorem RunImpl_CONFIGURE_temperature (P : Platform W) (cfg : Config) (s : Driver W) :
    (RunImpl_CONFIGURE P cfg s).m._temperature_update_timestamp
      = s.m._temperature_update_timestamp := by
  simp only [RunImpl_CONFIGURE]
  split
  · simp [Configure_m]
  · split <;> simp [Configure_m]
/-! ## The temperature branch -/

theorem tempTransferCount_append (cfg : Config) (l l' : List Event) :
    tempTransferCount cfg (l ++ l') = tempTransferCount cfg l + tempTransferCount cfg l' := by
  simp [tempTransferCount]

theorem tempTransferCount_READ_sample (P : Platform W) (cfg : Config) (s : Driver W) :
    tempTransferCount cfg (READ_sample P cfg s).s.trace = tempTransferCount cfg s.trace := by
  rw [READ_sample_trace]
  simp only [tempTransferCount_append]
  split <;> split <;> simp [tempTransferCount]

theorem tempTransferCount_READ_threshold (cfg : Config) (s : Driver W) :
    tempTransferCount cfg (READ_threshold s).trace = tempTransferCount cfg s.trace := by
  unfold READ_threshold
  split
  · rw [Reset_trace, tempTransferCount_append]
    simp [tempTransferCount]
  · rfl

theorem tempTransferCount_READ_temperature (P : Platform W) (cfg : Config) (t : Nat)
    (s : Driver W) :
    tempTransferCount cfg (READ_temperature P cfg t s).trace =
      tempTransferCount cfg s.trace +
        if (hrt_elapsed_time P s.m._temperature_update_timestamp s).1 > sec 1 then 1 else 0 := by
  simp only [READ_temperature]
  split
  · split
    · simp only [emit_trace, transfer_trace, hrt_elapsed_time_trace, tempTransferCount_append]
      simp [tempTransferCount]
    · simp only [transfer_trace, hrt_elapsed_time_trace, tempTransferCount_append]
      simp [tempTransferCount]
  · simp

theorem READ_sample_last_check (P : Platform W) (cfg : Config) (s : Driver W) :
    (READ_sample P cfg s).s.m._last_config_check_timestamp
      = s.m._last_config_check_timestamp := by
  rw [READ_sample_m]; split <;> rfl

theorem checkDue_false (P : Platform W) (f : Bool) (s : Driver W)
    (h : (checkDue P f s).1 = false) :
    f = false ∧ (hrt_elapsed_time P s.m._last_config_check_timestamp s).1 ≤ ms 100 := by
  unfold checkDue at h
  split at h
  · exact absurd h (by simp)
  · rename_i hf
    exact ⟨by simpa using hf, by simpa using h⟩

/-- A READ step on which the register-check branch is not taken. -/
theorem RunImpl_READ_nocheck (P : Platform W) (cfg : Config) (s : Driver W)
    (hst : s.m._state = STATE.READ) (hnd : checkRuns P cfg s = false) :
    RunImpl P cfg s = some (READ_threshold (READ_temperature P cfg
      (READ_sample P cfg s).timestamp_sample
      (checkDue P (READ_sample P cfg s).failure (READ_sample P cfg s).s).2)) := by
  unfold checkRuns at hnd
  unfold RunImpl
  rw [hst]
  simp only [RunImpl_READ, hnd]
  rfl

/-- A READ step on which the register-check branch is taken: it returns, the
temperature timestamp is untouched, no temperature transfer is issued, and the
world is the one the register check left. -/
theorem RunImpl_READ_withcheck (P : Platform W) (cfg : Config) (s : Driver W)
    (hst : s.m._state = STATE.READ) (hdue : checkRuns P cfg s = true)
    (hidx : s.m._checked_register < cfg.size_register_cfg) :
    ∃ e s', cfg._register_cfg[s.m._checked_register]? = some e ∧
      RunImpl P cfg s = some s' ∧
      s'.m._temperature_update_timestamp = s.m._temperature_update_timestamp ∧
      s'.world = (RegisterCheck P e
        (checkDue P (READ_sample P cfg s).failure (READ_sample P cfg s).s).2).2.world ∧
      tempTransferCount cfg s'.trace = tempTransferCount cfg s.trace := by
  have hi : s.m._checked_register < cfg._register_cfg.length := hidx
  have heq : (checkDue P (READ_sample P cfg s).failure
      (READ_sample P cfg s).s).2.m._checked_register = s.m._checked_register := by
    rw [checkDue_m, READ_sample_checked]
  refine ⟨cfg._register_cfg[s.m._checked_register], ?_⟩
  unfold checkRuns at hdue
  unfold RunImpl
  rw [hst]
  simp only [RunImpl_READ]
  rw [if_pos hdue, heq, List.getElem?_eq_getElem hi]
  simp only
  split
  · refine ⟨_, trivial, rfl, ?_, ?_, ?_⟩
    · rw [READ_threshold_temperature]
      simp [READ_sample_temperature]
    · rw [READ_threshold_world]
    · rw [tempTransferCount_READ_threshold]
      simp only [RegisterCheck_trace, checkDue_trace, tempTransferCount_append,
        tempTransferCount_READ_sample]
      simp [tempTransferCount]
  · refine ⟨_, trivial, rfl, ?_, rfl, ?_⟩
    · simp [Reset, READ_sample_temperature]
    · simp only [Reset_trace, emit_trace, RegisterCheck_trace, checkDue_trace,
        tempTransferCount_append, tempTransferCount_READ_sample]
      simp [tempTransferCount]

theorem temperatureRuns_of_nocheck (P : Platform W) (cfg : Config) (s : Driver W)
    (hnd : checkRuns P cfg s = false) :
    temperatureRuns P cfg s = decide
      ((hrt_elapsed_time P s.m._temperature_update_timestamp
        (checkDue P (READ_sample P cfg s).failure (READ_sample P cfg s).s).2).1 > sec 1) := by
  unfold checkRuns at hnd
  simp [temperatureRuns, hnd]

theorem temperatureRuns_of_check (P : Platform W) (cfg : Config) (s : Driver W)
    (hd : checkRuns P cfg s = true) : temperatureRuns P cfg s = false := by
  unfold checkRuns at hd
  simp [temperatureRuns, hd]

theorem checkDue_temperature (P : Platform W) (cfg : Config) (s : Driver W) :
    (checkDue P (READ_sample P cfg s).failure
      (READ_sample P cfg s).s).2.m._temperature_update_timestamp
      = s.m._temperature_update_timestamp := by
  rw [checkDue_m, READ_sample_temperature]
/-- The temperature timestamp after a READ step on which the register-check branch
is not taken. -/
theorem RunImpl_READ_nocheck_temperature (P : Platform W) (cfg : Config) (s : Driver W) :
    (READ_threshold (READ_temperature P cfg (READ_sample P cfg s).timestamp_sample
      (checkDue P (READ_sample P cfg s).failure
        (READ_sample P cfg s).s).2)).m._temperature_update_timestamp =
      if (hrt_elapsed_time P s.m._temperature_update_timestamp
        (checkDue P (READ_sample P cfg s).failure (READ_sample P cfg s).s).2).1 > sec 1
      then (READ_sample P cfg s).timestamp_sample
      else s.m._temperature_update_timestamp := by
  rw [READ_threshold_temperature, READ_temperature_m, checkDue_temperature]
  split
  · rfl
  · exact checkDue_temperature P cfg s

/-- One step keeps the temperature timestamp between a bound `c` it had reached and
the bound of the clock. -/
theorem temperature_timestamp_step {P : Platform W} {lo : W → Nat} (hP : NonDecreasing P lo)
    (cfg : Config) (c : Nat) (s s' : Driver W) (hs : RunImpl P cfg s = some s')
    (hc : c ≤ s.m._temperature_update_timestamp)
    (hlo : s.m._temperature_update_timestamp ≤ lo s.world) :
    c ≤ s'.m._temperature_update_timestamp ∧
    s'.m._temperature_update_timestamp ≤ lo s'.world := by
  cases hst : s.m._state with
  | RESET =>
    simp only [RunImpl, hst, Option.some.injEq] at hs
    subst hs
    exact ⟨hc, Nat.le_trans hlo (lo_RunImpl_RESET hP cfg s)⟩
  | WAIT_FOR_RESET =>
    simp only [RunImpl, hst, Option.some.injEq] at hs
    subst hs
    rw [RunImpl_WAIT_FOR_RESET_temperature]
    exact ⟨hc, Nat.le_trans hlo (lo_RunImpl_WAIT_FOR_RESET hP cfg s)⟩
  | CONFIGURE =>
    simp only [RunImpl, hst, Option.some.injEq] at hs
    subst hs
    rw [RunImpl_CONFIGURE_temperature]
    exact ⟨hc, Nat.le_trans hlo (lo_RunImpl_CONFIGURE hP cfg s)⟩
  | READ =>
    have ha := lo_READ_sample hP cfg s
    have hd := lo_checkDue hP (READ_sample P cfg s).failure (READ_sample P cfg s).s
    cases hdue : checkRuns P cfg s with
    | true =>
      have hlook : s.m._checked_register < cfg.size_register_cfg := by
        by_contra hge
        have hnone : cfg._register_cfg[s.m._checked_register]? = none :=
          List.getElem?_eq_none (by unfold Config.size_register_cfg at hge; omega)
        unfold checkRuns at hdue
        unfold RunImpl at hs
        rw [hst] at hs
        simp only [RunImpl_READ, hdue, if_true, checkDue_m, READ_sample_checked, hnone] at hs
        exact absurd hs (by simp)
      obtain ⟨e, s1, -, hs1, hT, hw, -⟩ := RunImpl_READ_withcheck P cfg s hst hdue hlook
      rw [hs1] at hs
      cases hs
      rw [hT, hw]
      exact ⟨hc, Nat.le_trans hlo (Nat.le_trans (Nat.le_trans ha.1 ha.2)
        (Nat.le_trans hd (lo_RegisterCheck hP e _)))⟩
    | false =>
      rw [RunImpl_READ_nocheck P cfg s hst hdue] at hs
      cases hs
      have ht := lo_READ_temperature hP cfg (READ_sample P cfg s).timestamp_sample
        (checkDue P (READ_sample P cfg s).failure (READ_sample P cfg s).s).2
      rw [RunImpl_READ_nocheck_temperature, READ_threshold_world]
      split
      · exact ⟨by omega, by omega⟩
      · exact ⟨hc, by omega⟩

/-- Any number of steps keeps the temperature timestamp between a bound `c` it had
reached and the bound of the clock. -/
theorem temperature_timestamp_run {P : Platform W} {lo : W → Nat} (hP : NonDecreasing P lo)
    (cfg : Config) (c : Nat) (n : Nat) (s s' : Driver W) (hs : run P cfg n s = some s')
    (hc : c ≤ s.m._temperature_update_timestamp)
    (hlo : s.m._temperature_update_timestamp ≤ lo s.world) :
    c ≤ s'.m._temperature_update_timestamp ∧
    s'.m._temperature_update_timestamp ≤ lo s'.world := by
  induction n generalizing s with
  | zero =>
    simp only [run, Option.some.injEq] at hs
    subst hs
    exact ⟨hc, hlo⟩
  | succ n ih =>
    rw [run] at hs
    cases h1 : RunImpl P cfg s with
    | none => rw [h1] at hs; exact absurd hs (by simp)
    | some s1 =>
      rw [h1, Option.some_bind] at hs
      obtain ⟨hc1, hlo1⟩ := temperature_timestamp_step hP cfg c s s1 h1 hc hlo
      exact ih s1 hs hc1 hlo1

/-- C17: a READ step with the round-robin index inside the table returns and issues
the temperature transfer exactly when it takes the temperature branch. When it
does, the register check did not run (the sample transfer succeeded and at most
100 ms had elapsed since the last configuration check), more than 1 s had
elapsed since `_temperature_update_timestamp`, and that timestamp becomes the
step's sample timestamp whatever the temperature transfer's result; when it does
not, the timestamp is unchanged. Hence, with a clock that never goes back, of
two READ steps that both take the temperature branch the later one reads the
clock more than 1 s after the earlier one's sample timestamp. -/
theorem temperature_ceiling (P : Platform W) (cfg : Config) :
    (∀ s : Driver W, s.m._state = STATE.READ →
      s.m._checked_register < cfg.size_register_cfg →
      ∃ s', RunImpl P cfg s = some s' ∧
        tempTransferCount cfg s'.trace =
          tempTransferCount cfg s.trace + (if temperatureRuns P cfg s then 1 else 0) ∧
        (temperatureRuns P cfg s = true →
          checkRuns P cfg s = false ∧ (READ_sample P cfg s).failure = false ∧
          (hrt_elapsed_time P s.m._last_config_check_timestamp (READ_sample P cfg s).s).1
            ≤ ms 100 ∧
          sec 1 < temperatureClock P cfg s - s.m._temperature_update_timestamp ∧
          s'.m._temperature_update_timestamp = (READ_sample P cfg s).timestamp_sample) ∧
        (temperatureRuns P cfg s = false →
          s'.m._temperature_update_timestamp = s.m._temperature_update_timestamp)) ∧
    (∀ (lo : W → Nat), NonDecreasing P lo → ∀ (sA sB : Driver W) (k : Nat),
      sA.m._state = STATE.READ → temperatureRuns P cfg sA = true →
      run P cfg (k + 1) sA = some sB →
      sB.m._state = STATE.READ → temperatureRuns P cfg sB = true →
      (READ_sample P cfg sA).timestamp_sample + sec 1 < temperatureClock P cfg sB) := by
  constructor
  · intro s hst hidx
    cases hdue : checkRuns P cfg s with
    | true =>
      obtain ⟨e, s', -, hs', hT, -, hcount⟩ := RunImpl_READ_withcheck P cfg s hst hdue hidx
      have hno := temperatureRuns_of_check P cfg s hdue
      refine ⟨s', hs', by rw [hcount, hno]; rfl, fun h => ?_, fun _ => hT⟩
      rw [hno] at h
      exact absurd h (by simp)
    | false =>
      have hruns := temperatureRuns_of_nocheck P cfg s hdue
      have hfalse := checkDue_false P _ _ hdue
      rw [READ_sample_last_check] at hfalse
      refine ⟨_, RunImpl_READ_nocheck P cfg s hst hdue, ?_, ?_, ?_⟩
      · rw [tempTransferCount_READ_threshold, tempTransferCount_READ_temperature,
          checkDue_trace, tempTransferCount_READ_sample, checkDue_temperature, hruns]
        simp only [decide_eq_true_eq]
      · intro h
        rw [hruns, decide_eq_true_eq] at h
        refine ⟨rfl, hfalse.1, hfalse.2, h, ?_⟩
        rw [RunImpl_READ_nocheck_temperature, if_pos h]
      · intro h
        rw [hruns, decide_eq_false_iff_not] at h
        rw [RunImpl_READ_nocheck_temperature, if_neg h]
  · intro lo hP sA sB k hstA hA hrun hstB hB
    have hndA : checkRuns P cfg sA = false := by
      cases h : checkRuns P cfg sA with
      | false => rfl
      | true => rw [temperatureRuns_of_check P cfg sA h] at hA; exact absurd hA (by simp)
    have hndB : checkRuns P cfg sB = false := by
      cases h : checkRuns P cfg sB with
      | false => rfl
      | true => rw [temperatureRuns_of_check P cfg sB h] at hB; exact absurd hB (by simp)
    rw [temperatureRuns_of_nocheck P cfg sA hndA, decide_eq_true_eq] at hA
    rw [temperatureRuns_of_nocheck P cfg sB hndB, decide_eq_true_eq] at hB
    rw [run, RunImpl_READ_nocheck P cfg sA hstA hndA, Option.some_bind] at hrun
    have hT := RunImpl_READ_nocheck_temperature P cfg sA
    rw [if_pos hA] at hT
    have ha := lo_READ_sample hP cfg sA
    have hd := lo_checkDue hP (READ_sample P cfg sA).failure (READ_sample P cfg sA).s
    have ht := lo_READ_temperature hP cfg (READ_sample P cfg sA).timestamp_sample
      (checkDue P (READ_sample P cfg sA).failure (READ_sample P cfg sA).s).2
    have hinv := temperature_timestamp_run hP cfg (READ_sample P cfg sA).timestamp_sample k _ sB
      hrun (by rw [hT]) (by rw [hT, READ_threshold_world]; omega)
    have hB' : sec 1 < temperatureClock P cfg sB - sB.m._temperature_update_timestamp := hB
    omega
/-- C17 on the paced world (every clock reading 30 ms after the previous one): the
step at 2 s takes the temperature branch, the next step that does is the one
after 14 steps, and it reads the clock at 3.11 s, more than 1 s after the sample
timestamp 2 s of the first. -/
theorem temperature_ceiling_witness :
    temperatureRuns paced datasheet pacedDriver = true ∧
    (READ_sample paced datasheet pacedDriver).timestamp_sample = 2000000 ∧
    ∃ sB, run paced datasheet 14 pacedDriver = some sB ∧
      temperatureRuns paced datasheet sB = true ∧
      temperatureClock paced datasheet sB = 3110000 ∧
      (READ_sample paced datasheet pacedDriver).timestamp_sample + sec 1
        < temperatureClock paced datasheet sB := by
  have hP : NonDecreasing paced id :=
    ⟨fun w => Nat.le_refl w, fun w => Nat.le_add_right w 30000, fun _ _ w => Nat.le_refl w⟩
  have hrun : (run paced datasheet 14 pacedDriver).isSome = true := by decide
  obtain ⟨sB, hsB⟩ := Option.isSome_iff_exists.mp hrun
  have hB : (run paced datasheet 14 pacedDriver).map
      (fun s => (s.m._state, temperatureRuns paced datasheet s,
        temperatureClock paced datasheet s)) = some (STATE.READ, true, 3110000) := by decide
  rw [hsB] at hB
  simp only [Option.map_some', Option.some.injEq, Prod.mk.injEq] at hB
  exact ⟨by decide, by decide, sB, hsB, hB.2.1, hB.2.2,
    (temperature_ceiling paced datasheet).2 id hP pacedDriver sB 13 rfl (by decide) hsB
      hB.1 hB.2.1⟩

/-! ## The reset-timeout scenario -/

theorem simulate_of_none (P : Platform Nat) (cfg : Config) (horizon fuel : Nat) (x : Sim)
    (h : simStep P cfg horizon x = none) : simulate P cfg horizon fuel x = [] := by
  cases fuel with
  | zero => rfl
  | succ n => simp only [simulate, h]

theorem simulate_add (P : Platform Nat) (cfg : Config) (horizon n k : Nat) (x : Sim) :
    simulate P cfg horizon (n + k) x =
      simulate P cfg horizon n x ++
        match simRun P cfg horizon n x with
        | none => []
        | some x' => simulate P cfg horizon k x' := by
  induction n generalizing x with
  | zero => simp [simulate, simRun]
  | succ n ih =>
    rw [Nat.add_right_comm]
    simp only [simulate, simRun]
    cases h : simStep P cfg horizon x with
    | none => simp
    | some r => simp only [Option.some_bind, List.cons_append, ih]

set_option maxRecDepth 100000 in
theorem resetScenario_turns :
    ∀ v : uint8_t, v.val &&& datasheet.SOFT_RST.val ≠ 0 →
      simulate (stuck v) datasheet (ms 1200) 13 powerOn = resetScenario ∧
      (simRun (stuck v) datasheet (ms 1200) 13 powerOn).bind
        (simStep (stuck v) datasheet (ms 1200)) = none := by
  decide

/-- C11: starting in RESET at time 0 with the first invocation pending, a scheduler
that runs each step exactly at the requested time, and a device whose `CNTL2`
always reads with `SOFT_RST` set: whatever the fuel beyond thirteen turns, the
turns up to 1200 ms are the thirteen of `resetScenario`, and exactly one of them
is a transition from WAIT_FOR_RESET to RESET (at 1100 ms). -/
theorem reset_timeout_once (v : uint8_t) (k : Nat)
    (hv : v.val &&& datasheet.SOFT_RST.val ≠ 0) :
    simulate (stuck v) datasheet (ms 1200) (13 + k) powerOn = resetScenario ∧
    resetTimeouts (simulate (stuck v) datasheet (ms 1200) (13 + k) powerOn) = 1 ∧
    (1100000, STATE.WAIT_FOR_RESET, STATE.RESET) ∈
      simulate (stuck v) datasheet (ms 1200) (13 + k) powerOn := by
  obtain ⟨h13, hstop⟩ := resetScenario_turns v hv
  have hsim : simulate (stuck v) datasheet (ms 1200) (13 + k) powerOn = resetScenario := by
    rw [simulate_add, h13]
    cases hrun : simRun (stuck v) datasheet (ms 1200) 13 powerOn with
    | none => simp
    | some x =>
      rw [hrun, Option.some_bind] at hstop
      simp only [simulate_of_none _ _ _ _ _ hstop, List.append_nil]
  rw [hsim]
  exact ⟨rfl, by decide, by decide⟩

/-- C11 with `CNTL2` always reading `0x80` and fuel for twenty turns. -/
theorem reset_timeout_once_witness :
    resetTimeouts (simulate (stuck 0x80) datasheet 1200000 20 powerOn) = 1 :=
  (reset_timeout_once 0x80 7 (by decide)).2.1

end QMC5883L
